import Mathlib

/-! # podsync: the Rumble feed builder (`pkg/builder/rumble.go`)

A shallow embedding of `RumbleBuilder.Build` and its helpers
(`sortEpisodes`, `selectRumbleThumbnail`, `convertRumbleEntry`,
`publishedAt`, `estimateRumbleSize`) together with the parts of the Go
standard library they rely on (`time.Unix`, `time.Parse` for the layout
`"20060102"`, `time.Date`, `Time.IsZero/After/Before`, `sort.SliceStable`).

Conventions.
* Go `int`/`int64` values are `Int`; the places where two's-complement
  overflow can occur are written with `wrapInt64`.
* A Go `string` is a Lean `String`.  The only byte-level code is the
  upload-date parser, which succeeds on exactly eight ASCII digits; a
  non-ASCII character is encoded with bytes `≥ 0x80`, none of which is a
  digit, so working on characters instead of bytes gives the same result.
* A `*ytdl.PlaylistEntry` that may be `nil` is an `Option PlaylistEntry`.
* The collaborators (`ParseURL`, `Downloader.PlaylistEntries`) and the wall
  clock (`time.Now`) are inputs of `Build`.
-/

namespace Podsync

/-! ## Machine integers -/

/-- Two's-complement reduction of an integer to the `int64` range. -/
def wrapInt64 (x : Int) : Int :=
  (x + 2 ^ 63) % 2 ^ 64 - 2 ^ 63

/-- The integer is representable as a Go `int64`. -/
def IsInt64 (x : Int) : Prop :=
  -(2 ^ 63) ≤ x ∧ x < 2 ^ 63

instance (x : Int) : Decidable (IsInt64 x) := by
  unfold IsInt64; exact inferInstance

/-! ## `time.Time` -/

/-- A `time.Time` without monotonic reading: `sec` is the `int64` count of
seconds since 0001-01-01T00:00:00Z (the field `ext`), `nsec` the nanoseconds
within the second.  Every time built by this package has had `UTC()` applied
or comes from `time.Parse`, so none carries a monotonic reading; the location
pointer plays no part in `IsZero`, `After`, `Before` or `Unix`. -/
structure Time where
  sec : Int
  nsec : Nat
deriving DecidableEq

/-- The constant `unixToInternal`: seconds from year 1 to 1970. -/
def unixToInternal : Int := (1969 * 365 + 1969 / 4 - 1969 / 100 + 1969 / 400) * 86400

/-- The constant `internalToUnix`. -/
def internalToUnix : Int := -unixToInternal

/-- The constant `absoluteZeroYear` of package `time`. -/
def absoluteZeroYear : Int := -292277022399

/-- The constant `absoluteToInternal`:
`(absoluteZeroYear - internalYear) * 365.2425 * secondsPerDay`. -/
def absoluteToInternal : Int := (absoluteZeroYear - 1) * 31556952

/-- The zero value `time.Time{}`. -/
def Time.zero : Time := ⟨0, 0⟩

/-- Go `Time.IsZero`: `t.sec() == 0 && t.nsec() == 0`. -/
def Time.IsZero (t : Time) : Bool :=
  t.sec == 0 && t.nsec == 0

/-- Go `Time.After`: `ts > us || ts == us && t.nsec() > u.nsec()`. -/
def Time.After (t u : Time) : Bool :=
  decide (t.sec > u.sec) || (t.sec == u.sec && decide (t.nsec > u.nsec))

/-- Go `Time.Before`: `ts < us || ts == us && t.nsec() < u.nsec()`. -/
def Time.Before (t u : Time) : Bool :=
  decide (t.sec < u.sec) || (t.sec == u.sec && decide (t.nsec < u.nsec))

/-- Go `Time.Unix`: `t.sec() + internalToUnix`, in `int64` arithmetic. -/
def Time.Unix (t : Time) : Int :=
  wrapInt64 (t.sec + internalToUnix)

/-- Go `time.Unix(sec, 0)` followed by `.UTC()`: `unixTime` stores
`sec + unixToInternal`, computed in `int64`. -/
def timeUnix (sec : Int) : Time :=
  ⟨wrapInt64 (sec + unixToInternal), 0⟩

/-! ## `time.Parse("20060102", ·)` -/

/-- Go `isDigit(s, i)`: index `i` is in range and holds an ASCII digit. -/
def isDigit (s : List Char) (i : Nat) : Bool :=
  match s.get? i with
  | none => false
  | some c => decide (48 ≤ c.toNat) && decide (c.toNat ≤ 57)

/-- The value `int(c - '0')` of a digit. -/
def digitVal (c : Char) : Nat := c.toNat - 48

/-- Go `leadingInt`: consumes the leading digits; fails when the value
exceeds `1 << 63`.  Returns the value and the rest. -/
def leadingInt : List Char → Nat → Option (Nat × List Char)
  | [], x => some (x, [])
  | c :: rest, x =>
    if 48 ≤ c.toNat ∧ c.toNat ≤ 57 then
      if x > 2 ^ 63 / 10 then none
      else
        let x1 := x * 10 + digitVal c
        if x1 > 2 ^ 63 then none else leadingInt rest x1
    else some (x, c :: rest)

/-- Go `atoi`: an optional sign, then digits up to the end of the string. -/
def atoi (s : List Char) : Option Int :=
  let neg := match s with
    | c :: _ => c == '-'
    | [] => false
  let body := match s with
    | c :: rest => if c == '-' || c == '+' then rest else s
    | [] => s
  match leadingInt body 0 with
  | none => none
  | some (q, rem) =>
    if rem.length > 0 then none
    else some (if neg then -(q : Int) else (q : Int))

/-- Go `getnum(s, fixed)`: one or two leading digits; with `fixed` exactly two.
Returns the number and the rest of the string. -/
def getnum (s : List Char) (fixed : Bool) : Option (Nat × List Char) :=
  if !isDigit s 0 then none
  else if !isDigit s 1 then
    if fixed then none
    else
      match s with
      | c :: rest => some (digitVal c, rest)
      | [] => none
  else
    match s with
    | c0 :: c1 :: rest => some (digitVal c0 * 10 + digitVal c1, rest)
    | _ => none

/-- Go `isLeap(year)`. -/
def isLeap (year : Int) : Bool :=
  year % 4 == 0 && (year % 100 != 0 || year % 400 == 0)

/-- The table `daysBefore`: `daysBefore[m]` counts the days of a non-leap
year before month `m + 1`. -/
def daysBefore : List Nat :=
  [0, 31, 59, 90, 120, 151, 181, 212, 243, 273, 304, 334, 365]

/-- Go `daysIn(m, year)`. -/
def daysIn (m : Nat) (year : Int) : Nat :=
  if m = 2 ∧ isLeap year then 29
  else daysBefore.getD m 0 - daysBefore.getD (m - 1) 0

/-- Go `daysSinceEpoch(year)`: days from the absolute epoch to January 1st of
`year`, in `uint64` arithmetic. -/
def daysSinceEpoch (year : Int) : Nat :=
  let y := (year - absoluteZeroYear).toNat
  let n1 := y / 400
  let y1 := y - 400 * n1
  let d1 := 146097 * n1
  let n2 := y1 / 100
  let y2 := y1 - 100 * n2
  let d2 := d1 + 36524 * n2
  let n3 := y2 / 4
  let y3 := y2 - 4 * n3
  let d3 := d2 + 1461 * n3
  d3 + 365 * y3

/-- Go `time.Date(year, month, day, 0, 0, 0, 0, time.UTC)` for a month in
`1..12`, where the normalisation steps of `Date` change nothing and the
zone offset is 0. -/
def Date (year : Int) (month day : Nat) : Time :=
  let d := daysSinceEpoch year + daysBefore.getD (month - 1) 0
  let d := if isLeap year ∧ 3 ≤ month then d + 1 else d
  let d := d + (day - 1)
  let abs := d * 86400
  let unix := wrapInt64 ((abs : Int) + (absoluteToInternal + internalToUnix))
  ⟨wrapInt64 (unix + unixToInternal), 0⟩

/-- Go `time.Parse("20060102", value)`: `stdLongYear`, `stdZeroMonth`,
`stdZeroDay`, then no text may remain and the day must exist in the month.
`none` stands for a non-nil error. -/
def timeParse (value : String) : Option Time :=
  let value := value.data
  if value.length < 4 || !isDigit value 0 then none
  else
    match atoi (value.take 4) with
    | none => none
    | some year =>
      match getnum (value.drop 4) true with
      | none => none
      | some (month, value) =>
        if month ≤ 0 ∨ 12 < month then none
        else
          match getnum value true with
          | none => none
          | some (day, value) =>
            if value.length ≠ 0 then none
            else if day < 1 ∨ day > daysIn month year then none
            else some (Date year month day)

/-! ## `sort.SliceStable` -/

/-- The inner loop of the insertion sort: the new element `x` ends up in
front of the elements it is less than.  On a sorted prefix these form a
suffix, so `x` lands before the first of them. -/
def stableInsert {α : Type} (less : α → α → Bool) (x : α) : List α → List α
  | [] => [x]
  | p :: ps => if less x p then x :: p :: ps else p :: stableInsert less x ps

/-- Go `sort.SliceStable(data, less)`: the elements are inserted one by one,
left to right, into the sorted prefix.  The library merges sorted blocks
of 20 elements; for a strict weak order `less` every stable sort returns the
same slice. -/
def sliceStable {α : Type} (less : α → α → Bool) (data : List α) : List α :=
  data.foldl (fun sorted x => stableInsert less x sorted) []

/-! ## Data model (`pkg/model`, `pkg/feed`, `pkg/ytdl`) -/

/-- Modelled from the spec: the declaration of `model.Quality`, a string
type with the values "high" and "low". -/
abbrev Quality := String

/-- Modelled from the spec: the constant `model.QualityHigh`. -/
def QualityHigh : Quality := "high"

/-- Modelled from the spec: the constant `model.QualityLow`. -/
def QualityLow : Quality := "low"

/-- Modelled from the spec: the declaration of `model.Format`, a string
type with the values "audio" and "video". -/
abbrev Format := String

/-- Modelled from the spec: the constant `model.FormatAudio`. -/
def FormatAudio : Format := "audio"

/-- Modelled from the spec: the constant `model.FormatVideo`. -/
def FormatVideo : Format := "video"

/-- Modelled from the spec: the declaration of `model.Sorting`, a string
type with the values "asc" and "desc". -/
abbrev Sorting := String

/-- Modelled from the spec: the constant `model.SortingDesc`. -/
def SortingDesc : Sorting := "desc"

/-- Modelled from the spec: the constant `model.SortingAsc`. -/
def SortingAsc : Sorting := "asc"

/-- Modelled from the spec: the declaration of `model.EpisodeStatus` with
its constant `model.EpisodeNew`, the lifecycle status "new". -/
def EpisodeNew : String := "new"

/-- A Go `error` value: a message, possibly wrapping a cause
(`errors.Wrap(cause, context)`). -/
inductive GoError where
  | mk (msg : String)
  | wrap (cause : GoError) (context : String)
deriving DecidableEq

/-- Go `ytdl.PlaylistMetadataThumbnail`. -/
structure PlaylistMetadataThumbnail where
  Url : String
deriving DecidableEq

/-- Go `ytdl.PlaylistEntry`, the fields read by the builder.  `Duration` holds
the value of `int64(entry.Duration)`; `Timestamp` and `ReleaseTimestamp`
are `int64`. -/
structure PlaylistEntry where
  ID : String
  Title : String
  Description : String
  Duration : Int
  Timestamp : Int
  ReleaseTimestamp : Int
  UploadDate : String
  WebpageURL : String
  URL : String
  Thumbnails : List PlaylistMetadataThumbnail
deriving DecidableEq

/-- Go `ytdl.PlaylistMetadata`; `Entries` is a slice of pointers, each of
which may be nil. -/
structure PlaylistMetadata where
  Title : String
  Description : String
  Channel : String
  ChannelUrl : String
  WebpageUrl : String
  Thumbnails : List PlaylistMetadataThumbnail
  Entries : List (Option PlaylistEntry)
deriving DecidableEq

/-- The field `Custom` of `feed.Config`, as far as the builder reads it. -/
structure Custom where
  CoverArtQuality : Podsync.Quality
deriving DecidableEq

/-- Go `feed.Config`, the fields read by the builder. -/
structure Config where
  URL : String
  PageSize : Int
  Format : Podsync.Format
  Quality : Podsync.Quality
  PlaylistSort : Podsync.Sorting
  Custom : Podsync.Custom
deriving DecidableEq

/-- Go `model.Info`, the result of `ParseURL`. -/
structure Info where
  ItemID : String
  Provider : String
  LinkType : String
deriving DecidableEq

/-- Go `model.Episode`. -/
structure Episode where
  ID : String
  Title : String
  Description : String
  Duration : Int
  PubDate : Time
  Thumbnail : String
  VideoURL : String
  Size : Int
  Status : String
deriving DecidableEq

/-- Go `model.Feed`, the fields written by the builder. -/
structure Feed where
  ItemID : String
  Provider : String
  LinkType : String
  Format : Podsync.Format
  Quality : Podsync.Quality
  PageSize : Int
  PlaylistSort : Podsync.Sorting
  CoverArtQuality : Podsync.Quality
  UpdatedAt : Time
  Title : String
  Description : String
  Author : String
  ItemURL : String
  CoverArt : String
  PubDate : Time
  Episodes : List Episode
deriving DecidableEq

/-! ## `rumble.go` -/

def rumbleHighVideoBytesPerSecond : Int := 350000
def rumbleLowVideoBytesPerSecond : Int := 100000
def rumbleHighAudioBytesPerSecond : Int := 128000 / 8
def rumbleLowAudioBytesPerSecond : Int := 48000 / 8

/-- Go `estimateRumbleSize`: the product is an `int64` multiplication. -/
def estimateRumbleSize (duration : Int) (feed : Feed) : Int :=
  if feed.Format = FormatAudio then
    if feed.Quality = QualityHigh then
      wrapInt64 (rumbleHighAudioBytesPerSecond * duration)
    else
      wrapInt64 (rumbleLowAudioBytesPerSecond * duration)
  else if feed.Quality = QualityHigh then
    wrapInt64 (duration * rumbleHighVideoBytesPerSecond)
  else
    wrapInt64 (duration * rumbleLowVideoBytesPerSecond)

/-- Go `selectRumbleThumbnail`. -/
def selectRumbleThumbnail (thumbnails : List PlaylistMetadataThumbnail)
    (quality : Quality) : String :=
  match thumbnails with
  | [] => ""
  | first :: rest =>
    if quality = QualityLow then first.Url
    else ((first :: rest).getLast (List.cons_ne_nil first rest)).Url

/-- Go `publishedAt`. -/
def publishedAt (entry : Option PlaylistEntry) : Time :=
  match entry with
  | none => Time.zero
  | some entry =>
    if entry.Timestamp > 0 then timeUnix entry.Timestamp
    else if entry.ReleaseTimestamp > 0 then timeUnix entry.ReleaseTimestamp
    else if entry.UploadDate ≠ "" then
      match timeParse entry.UploadDate with
      | some t => t
      | none => Time.zero
    else Time.zero

/-- Go `convertRumbleEntry`; `now` is the value `time.Now().UTC()` returns if
the function calls it. -/
def convertRumbleEntry (entry : PlaylistEntry) (feed : Feed) (now : Time) : Episode :=
  let pubDate := publishedAt (some entry)
  let pubDate := if pubDate.IsZero then now else pubDate
  let duration := entry.Duration
  let image := selectRumbleThumbnail entry.Thumbnails feed.Quality
  let videoURL := entry.WebpageURL
  let videoURL := if videoURL = "" then entry.URL else videoURL
  let videoURL := if videoURL = "" then "https://rumble.com/" ++ entry.ID else videoURL
  { ID := entry.ID
    Title := entry.Title
    Description := entry.Description
    Duration := duration
    PubDate := pubDate
    Thumbnail := image
    VideoURL := videoURL
    Size := estimateRumbleSize duration feed
    Status := EpisodeNew }

/-- Go `sortEpisodes`, on the episode slice of the feed. -/
def sortEpisodes (playlistSort : Sorting) (episodes : List Episode) : List Episode :=
  if episodes.length = 0 then episodes
  else
    sliceStable
      (fun a b =>
        if playlistSort = SortingDesc then a.PubDate.After b.PubDate
        else a.PubDate.Before b.PubDate)
      episodes

/-- The loop of `Build` over `metadata.Entries`.  `episodes` is
`_feed.Episodes` so far; `clock` lists the readings of the wall clock and
`tick` is the index of the next one, advanced whenever `convertRumbleEntry`
reads the clock. -/
def convertEntries (feed : Feed) (clock : Nat → Time) :
    List (Option PlaylistEntry) → List Episode → Nat → List Episode
  | [], episodes, _ => episodes
  | none :: rest, episodes, tick => convertEntries feed clock rest episodes tick
  | some entry :: rest, episodes, tick =>
    if entry.ID = "" then convertEntries feed clock rest episodes tick
    else
      let episodes := episodes ++ [convertRumbleEntry entry feed (clock tick)]
      let tick := if (publishedAt (some entry)).IsZero then tick + 1 else tick
      if (episodes.length : Int) ≥ feed.PageSize then episodes
      else convertEntries feed clock rest episodes tick

/-- The feed of `Build` when the loop over the entries starts: the
skeleton built from the locator and the config, with title, description,
author, item URL and cover art filled in. -/
def newFeed (info : Info) (metadata : PlaylistMetadata) (clock : Nat → Time)
    (cfg : Config) : Feed :=
  let title := if metadata.Title ≠ "" then metadata.Title else info.ItemID
  let description := metadata.Description
  let description :=
    if description = "" then "Rumble feed for " ++ title else description
  let author := metadata.Channel
  let author := if author = "" then title else author
  let itemURL := metadata.ChannelUrl
  let itemURL := if itemURL = "" then metadata.WebpageUrl else itemURL
  let itemURL := if itemURL = "" then cfg.URL else itemURL
  { ItemID := info.ItemID
    Provider := info.Provider
    LinkType := info.LinkType
    Format := cfg.Format
    Quality := cfg.Quality
    PageSize := cfg.PageSize
    PlaylistSort := cfg.PlaylistSort
    CoverArtQuality := cfg.Custom.CoverArtQuality
    UpdatedAt := clock 0
    Title := title
    Description := description
    Author := author
    ItemURL := itemURL
    CoverArt := selectRumbleThumbnail metadata.Thumbnails cfg.Custom.CoverArtQuality
    PubDate := Time.zero
    Episodes := [] }

/-- Go `RumbleBuilder.Build`.  `parsed` is the result of `ParseURL(cfg.URL)`,
`fetched` the result of `downloader.PlaylistEntries(ctx, cfg.URL,
cfg.PageSize)`, `clock` the successive results of `time.Now().UTC()`
(reading 0 is `UpdatedAt`, the readings from 1 on are taken by the
conversions). -/
def Build (parsed : Except GoError Info) (fetched : Except GoError PlaylistMetadata)
    (clock : Nat → Time) (cfg : Config) : Except GoError Feed :=
  match parsed with
  | .error err => .error err
  | .ok info =>
    match fetched with
    | .error err => .error (GoError.wrap err "failed to load rumble metadata")
    | .ok metadata =>
      let feed := newFeed info metadata clock cfg
      let episodes := convertEntries feed clock metadata.Entries feed.Episodes 1
      let episodes := sortEpisodes feed.PlaylistSort episodes
      let pubDate :=
        if feed.PubDate.IsZero ∧ episodes.length > 0 then
          match episodes with
          | first :: _ => first.PubDate
          | [] => feed.PubDate
        else feed.PubDate
      .ok { feed with PubDate := pubDate, Episodes := episodes }

/-! ## Specification-side notions -/

/-- The valid entries of a fetched sequence, in fetch order: present and
with a non-empty identifier. -/
def validEntries (entries : List (Option PlaylistEntry)) : List PlaylistEntry :=
  entries.filterMap (fun entry =>
    match entry with
    | none => none
    | some e => if e.ID = "" then none else some e)

/-- The conversions of a list of entries in order, the wall clock being
read from reading `tick` on by each conversion that needs it. -/
def convertAll (feed : Feed) (clock : Nat → Time) : List PlaylistEntry → Nat → List Episode
  | [], _ => []
  | e :: rest, tick =>
    convertRumbleEntry e feed (clock tick) ::
      convertAll feed clock rest (if (publishedAt (some e)).IsZero then tick + 1 else tick)

/-- The episodes of a build result; no episodes for an error. -/
def episodesOf (result : Except GoError Feed) : List Episode :=
  match result with
  | .ok feed => feed.Episodes
  | .error _ => []

/-! ## Calendar dates, as the specification speaks of them -/

/-- Leap years of the Gregorian calendar. -/
def leapYear (y : Nat) : Bool :=
  (y % 4 == 0 && y % 100 != 0) || y % 400 == 0

/-- The number of days of a year. -/
def yearLength (y : Nat) : Nat :=
  if leapYear y then 366 else 365

/-- The number of days of month `m` (1 to 12) of year `y`. -/
def monthLength (y m : Nat) : Nat :=
  match m with
  | 1 => 31
  | 2 => if leapYear y then 29 else 28
  | 3 => 31
  | 4 => 30
  | 5 => 31
  | 6 => 30
  | 7 => 31
  | 8 => 31
  | 9 => 30
  | 10 => 31
  | 11 => 30
  | 12 => 31
  | _ => 0

/-- A calendar date that can be written as `YYYYMMDD`: a year of at most
four digits (year 0000 included, as in ISO 8601), a month from 1 to 12 and a
day that exists in that month. -/
def ValidDate (y m d : Nat) : Prop :=
  y ≤ 9999 ∧ 1 ≤ m ∧ m ≤ 12 ∧ 1 ≤ d ∧ d ≤ monthLength y m

instance (y m d : Nat) : Decidable (ValidDate y m d) := by
  unfold ValidDate; exact inferInstance

/-- Days from 0000-01-01 to January 1st of year `y`, counted year by year. -/
def daysBeforeYear : Nat → Nat
  | 0 => 0
  | y + 1 => daysBeforeYear y + yearLength y

/-- Days of year `y` before the first of month `m`, counted month by month. -/
def daysBeforeMonth (y : Nat) : Nat → Nat
  | 0 => 0
  | m + 1 => daysBeforeMonth y m + monthLength y m

/-- The number of the day `y`-`m`-`d`, counted from 0000-01-01. -/
def dayNumber (y m d : Nat) : Nat :=
  daysBeforeYear y + daysBeforeMonth y m + (d - 1)

/-- Midnight UTC of the day `y`-`m`-`d` in Unix seconds: 86400 seconds for
each day since 1970-01-01. -/
def midnightUnix (y m d : Nat) : Int :=
  86400 * ((dayNumber y m d : Int) - (dayNumber 1970 1 1 : Int))

/-- The decimal digit character of `n % 10`. -/
def digitChar (n : Nat) : Char :=
  Char.ofNat (48 + n % 10)

/-- The eight-digit rendering `YYYYMMDD` of a date. -/
def renderYYYYMMDD (y m d : Nat) : String :=
  String.mk [digitChar (y / 1000), digitChar (y / 100), digitChar (y / 10), digitChar y,
    digitChar (m / 10), digitChar m, digitChar (d / 10), digitChar d]

/-! ## The scenario of `TestRumbleBuilderBuild` -/

/-- The first entry of the test playlist; `pubTime` is Unix 1700000000. -/
def testEntry1 : PlaylistEntry :=
  { ID := "abc123"
    Title := "First"
    Description := ""
    Duration := 120
    Timestamp := 1700000000
    ReleaseTimestamp := 0
    UploadDate := ""
    WebpageURL := "https://rumble.com/vabc123"
    URL := ""
    Thumbnails := [⟨"https://image/episode1.jpg"⟩] }

/-- The second entry of the test playlist, one hour later. -/
def testEntry2 : PlaylistEntry :=
  { ID := "def456"
    Title := "Second"
    Description := ""
    Duration := 60
    Timestamp := 1700000000 + 3600
    ReleaseTimestamp := 0
    UploadDate := ""
    WebpageURL := "https://rumble.com/vdef456"
    URL := ""
    Thumbnails := [⟨"https://image/episode2.jpg"⟩] }

/-- An entry carrying all three date sources: a primary timestamp, an
earlier release timestamp and an upload date. -/
def testEntryAllSources : PlaylistEntry :=
  { ID := "abc123"
    Title := "First"
    Description := ""
    Duration := 120
    Timestamp := 1700000000
    ReleaseTimestamp := 1600000000
    UploadDate := "20230615"
    WebpageURL := "https://rumble.com/vabc123"
    URL := ""
    Thumbnails := [] }

/-- An entry whose only date source is the upload date 2023-06-15. -/
def testEntryUploadDate : PlaylistEntry :=
  { ID := "ghi789"
    Title := "Third"
    Description := ""
    Duration := 30
    Timestamp := 0
    ReleaseTimestamp := 0
    UploadDate := "20230615"
    WebpageURL := ""
    URL := ""
    Thumbnails := [] }

/-- An entry without any usable date source: no timestamps and an upload
date that names no day of the calendar. -/
def testEntryNoDate : PlaylistEntry :=
  { ID := "jkl012"
    Title := "Fourth"
    Description := ""
    Duration := 30
    Timestamp := 0
    ReleaseTimestamp := 0
    UploadDate := "20230229"
    WebpageURL := ""
    URL := ""
    Thumbnails := [] }

/-- The playlist the fake downloader of the test returns. -/
def testMetadata : PlaylistMetadata :=
  { Title := "Channel title"
    Description := "Channel description"
    Channel := "Channel author"
    ChannelUrl := "https://rumble.com/c/example"
    WebpageUrl := ""
    Thumbnails := [⟨"https://image/low.jpg"⟩, ⟨"https://image/high.jpg"⟩]
    Entries := [some testEntry1, some testEntry2] }

/-- A playlist in which every field is empty. -/
def emptyMetadata : PlaylistMetadata :=
  { Title := ""
    Description := ""
    Channel := ""
    ChannelUrl := ""
    WebpageUrl := ""
    Thumbnails := []
    Entries := [] }

/-- The config of the test. -/
def testConfig : Config :=
  { URL := "https://rumble.com/c/example"
    PageSize := 1
    Format := FormatVideo
    Quality := QualityHigh
    PlaylistSort := SortingDesc
    Custom := ⟨""⟩ }

/-- A locator for the URL of the test (the test checks the provider only). -/
def testInfo : Info :=
  { ItemID := "example", Provider := "rumble", LinkType := "channel" }

/-- A wall clock for the scenario: reading `n` is `n` seconds after Unix
1700010000. -/
def testClock (n : Nat) : Time :=
  timeUnix (1700010000 + n)

/-- What `Build` returns in the scenario of the test. -/
def testFeed : Feed :=
  { ItemID := "example"
    Provider := "rumble"
    LinkType := "channel"
    Format := FormatVideo
    Quality := QualityHigh
    PageSize := 1
    PlaylistSort := SortingDesc
    CoverArtQuality := ""
    UpdatedAt := timeUnix 1700010000
    Title := "Channel title"
    Description := "Channel description"
    Author := "Channel author"
    ItemURL := "https://rumble.com/c/example"
    CoverArt := "https://image/high.jpg"
    PubDate := timeUnix 1700000000
    Episodes :=
      [{ ID := "abc123"
         Title := "First"
         Description := ""
         Duration := 120
         PubDate := timeUnix 1700000000
         Thumbnail := "https://image/episode1.jpg"
         VideoURL := "https://rumble.com/vabc123"
         Size := 42000000
         Status := "new" }] }

end Podsync

namespace Podsync

/-! ## Facts about the time model -/

theorem Time.before_iff (t u : Time) :
    t.Before u = true ↔ t.sec < u.sec ∨ (t.sec = u.sec ∧ t.nsec < u.nsec) := by
  simp [Time.Before]

theorem Time.after_eq_before (t u : Time) : t.After u = u.Before t := by
  rw [Bool.eq_iff_iff]
  simp only [Time.After, Time.Before, gt_iff_lt, Bool.or_eq_true, Bool.and_eq_true,
    decide_eq_true_eq, beq_iff_eq]
  omega

theorem Time.before_asymm {t u : Time} (h : t.Before u = true) : u.Before t = false := by
  rw [Bool.eq_false_iff]
  intro h2
  rw [Time.before_iff] at h h2
  omega

theorem Time.before_trans {t u v : Time} (h1 : t.Before u = true) (h2 : u.Before v = true) :
    t.Before v = true := by
  rw [Time.before_iff] at *
  omega

theorem Time.before_total {t u : Time} (h : t ≠ u) :
    t.Before u = true ∨ u.Before t = true := by
  rw [Time.before_iff, Time.before_iff]
  have : ¬ (t.sec = u.sec ∧ t.nsec = u.nsec) := by
    intro ⟨h1, h2⟩
    apply h
    cases t; cases u; simp_all
  omega

/-! ## Facts about `sort.SliceStable` -/

section Stable

variable {α κ : Type} [DecidableEq κ] (less : α → α → Bool) (key : α → κ)

theorem stableInsert_perm (x : α) (l : List α) :
    (stableInsert less x l).Perm (x :: l) := by
  induction l with
  | nil => simp [stableInsert]
  | cons p ps ih =>
    unfold stableInsert
    split
    · exact List.Perm.refl _
    · exact ((List.Perm.cons p ih).trans (List.Perm.swap x p ps))

theorem foldl_stableInsert_perm (l acc : List α) :
    (l.foldl (fun sorted x => stableInsert less x sorted) acc).Perm (acc ++ l) := by
  induction l generalizing acc with
  | nil => simp
  | cons x xs ih =>
    simp only [List.foldl_cons]
    refine (ih _).trans ?_
    refine ((stableInsert_perm less x acc).append_right xs).trans ?_
    simpa using (@List.perm_middle _ x acc xs).symm

theorem sliceStable_perm (l : List α) : (sliceStable less l).Perm l := by
  simpa [sliceStable] using foldl_stableInsert_perm less l []

/-- A slice is in order when no element is less than an earlier one. -/
theorem stableInsert_sorted
    (hasym : ∀ a b, less a b = true → less b a = false)
    (htrans : ∀ a b c, less a b = true → less b c = true → less a c = true)
    (x : α) (l : List α) (hl : l.Pairwise (fun a b => less b a = false)) :
    (stableInsert less x l).Pairwise (fun a b => less b a = false) := by
  induction l with
  | nil => simp [stableInsert]
  | cons p ps ih =>
    rw [List.pairwise_cons] at hl
    unfold stableInsert
    split
    · rename_i hxp
      refine List.Pairwise.cons ?_ (List.Pairwise.cons hl.1 hl.2)
      intro q hq
      rcases List.mem_cons.mp hq with rfl | hq
      · exact hasym _ _ hxp
      · rw [Bool.eq_false_iff]
        intro hqx
        have := htrans _ _ _ hqx hxp
        rw [hl.1 q hq] at this
        exact Bool.noConfusion this
    · rename_i hxp
      refine List.Pairwise.cons ?_ (ih hl.2)
      intro q hq
      rcases List.mem_cons.mp ((stableInsert_perm less x ps).subset hq) with rfl | hq
      · simpa using hxp
      · exact hl.1 q hq

theorem stableInsert_filter
    (hasym : ∀ a b, less a b = true → less b a = false)
    (hkey : ∀ a b c, key a = key b → less a c = less b c)
    (t : κ) (x : α) (l : List α) (hl : l.Pairwise (fun a b => less b a = false)) :
    (stableInsert less x l).filter (fun e => key e = t) =
      l.filter (fun e => key e = t) ++ [x].filter (fun e => key e = t) := by
  induction l with
  | nil => simp [stableInsert]
  | cons p ps ih =>
    rw [List.pairwise_cons] at hl
    unfold stableInsert
    split
    · rename_i hxp
      by_cases hx : key x = t
      · have hnone : (p :: ps).filter (fun e => key e = t) = [] := by
          rw [List.filter_eq_nil_iff]
          intro q hq hqt
          have hqx : key q = key x := by simpa [hx] using hqt
          have hqp : less q p = true := by rw [hkey q x p hqx]; exact hxp
          rcases List.mem_cons.mp hq with rfl | hq
          · have := hasym _ _ hqp
            rw [hqp] at this
            exact Bool.noConfusion this
          · rw [hl.1 q hq] at hqp
            exact Bool.noConfusion hqp
        rw [hnone, List.filter_cons_of_pos (by simpa using hx), hnone]
        simp [hx]
      · rw [List.filter_cons_of_neg (by simpa using hx)]
        simp [hx]
    · by_cases hp : key p = t
      · simp [List.filter_cons, hp, ih hl.2]
      · simp [List.filter_cons, hp, ih hl.2]

theorem foldl_stableInsert_sorted
    (hasym : ∀ a b, less a b = true → less b a = false)
    (htrans : ∀ a b c, less a b = true → less b c = true → less a c = true)
    (l acc : List α) (hacc : acc.Pairwise (fun a b => less b a = false)) :
    (l.foldl (fun sorted x => stableInsert less x sorted) acc).Pairwise
      (fun a b => less b a = false) := by
  induction l generalizing acc with
  | nil => simpa using hacc
  | cons x xs ih =>
    simp only [List.foldl_cons]
    exact ih _ (stableInsert_sorted less hasym htrans x acc hacc)

theorem foldl_stableInsert_filter
    (hasym : ∀ a b, less a b = true → less b a = false)
    (htrans : ∀ a b c, less a b = true → less b c = true → less a c = true)
    (hkey : ∀ a b c, key a = key b → less a c = less b c)
    (t : κ) (l acc : List α) (hacc : acc.Pairwise (fun a b => less b a = false)) :
    (l.foldl (fun sorted x => stableInsert less x sorted) acc).filter (fun e => key e = t) =
      acc.filter (fun e => key e = t) ++ l.filter (fun e => key e = t) := by
  induction l generalizing acc with
  | nil => simp
  | cons x xs ih =>
    simp only [List.foldl_cons]
    rw [ih _ (stableInsert_sorted less hasym htrans x acc hacc),
      stableInsert_filter less key hasym hkey t x acc hacc]
    by_cases hx : key x = t <;> simp [List.filter_cons, hx]

theorem sliceStable_sorted
    (hasym : ∀ a b, less a b = true → less b a = false)
    (htrans : ∀ a b c, less a b = true → less b c = true → less a c = true)
    (l : List α) : (sliceStable less l).Pairwise (fun a b => less b a = false) :=
  foldl_stableInsert_sorted less hasym htrans l [] List.Pairwise.nil

theorem sliceStable_filter
    (hasym : ∀ a b, less a b = true → less b a = false)
    (htrans : ∀ a b c, less a b = true → less b c = true → less a c = true)
    (hkey : ∀ a b c, key a = key b → less a c = less b c)
    (t : κ) (l : List α) :
    (sliceStable less l).filter (fun e => key e = t) = l.filter (fun e => key e = t) := by
  simpa [sliceStable] using
    foldl_stableInsert_filter less key hasym htrans hkey t l [] List.Pairwise.nil

end Stable

end Podsync

namespace Podsync

/-! ## `sortEpisodes` -/

/-- The comparison `sortEpisodes` hands to `sort.SliceStable`. -/
theorem sortEpisodes_eq (s : Sorting) (l : List Episode) :
    sortEpisodes s l =
      sliceStable (fun a b : Episode =>
        if s = SortingDesc then a.PubDate.After b.PubDate
        else a.PubDate.Before b.PubDate) l := by
  unfold sortEpisodes
  split
  · rename_i h
    have : l = [] := List.length_eq_zero.mp h
    subst this
    rfl
  · rfl

theorem episodeLess_asymm (s : Sorting) (a b : Episode)
    (h : (if s = SortingDesc then a.PubDate.After b.PubDate
      else a.PubDate.Before b.PubDate) = true) :
    (if s = SortingDesc then b.PubDate.After a.PubDate
      else b.PubDate.Before a.PubDate) = false := by
  by_cases hs : s = SortingDesc
  · simp only [hs, if_true, Time.after_eq_before] at h ⊢
    exact Time.before_asymm h
  · simp only [hs, if_false] at h ⊢
    exact Time.before_asymm h

theorem episodeLess_trans (s : Sorting) (a b c : Episode)
    (h1 : (if s = SortingDesc then a.PubDate.After b.PubDate
      else a.PubDate.Before b.PubDate) = true)
    (h2 : (if s = SortingDesc then b.PubDate.After c.PubDate
      else b.PubDate.Before c.PubDate) = true) :
    (if s = SortingDesc then a.PubDate.After c.PubDate
      else a.PubDate.Before c.PubDate) = true := by
  by_cases hs : s = SortingDesc
  · simp only [hs, if_true, Time.after_eq_before] at h1 h2 ⊢
    exact Time.before_trans h2 h1
  · simp only [hs, if_false] at h1 h2 ⊢
    exact Time.before_trans h1 h2

theorem sortEpisodes_perm (s : Sorting) (l : List Episode) : (sortEpisodes s l).Perm l := by
  rw [sortEpisodes_eq]
  exact sliceStable_perm _ l

theorem sortEpisodes_length (s : Sorting) (l : List Episode) :
    (sortEpisodes s l).length = l.length :=
  (sortEpisodes_perm s l).length_eq

theorem sortEpisodes_sorted (s : Sorting) (l : List Episode) :
    (sortEpisodes s l).Pairwise (fun a b =>
      (if s = SortingDesc then b.PubDate.After a.PubDate
        else b.PubDate.Before a.PubDate) = false) := by
  rw [sortEpisodes_eq]
  exact sliceStable_sorted _ (episodeLess_asymm s) (episodeLess_trans s) l

theorem sortEpisodes_filter (s : Sorting) (l : List Episode) (t : Time) :
    (sortEpisodes s l).filter (fun e => e.PubDate = t) = l.filter (fun e => e.PubDate = t) := by
  rw [sortEpisodes_eq]
  refine sliceStable_filter _ (fun e : Episode => e.PubDate) (episodeLess_asymm s)
    (episodeLess_trans s) ?_ t l
  intro a b c h
  simp only [h]

/-- C5: `sortEpisodes` returns a permutation of its input; of two episodes
with distinct publish dates the one placed first is the later one
(`After`) when the sort is descending and the earlier one (`Before`) for
every other sort value; and for every date the episodes carrying it appear in
the same order as in the input. -/
theorem sortEpisodes_stable_sort (s : Sorting) (l : List Episode) :
    (sortEpisodes s l).Perm l ∧
    (sortEpisodes s l).Pairwise (fun a b =>
      a.PubDate ≠ b.PubDate →
        if s = SortingDesc then a.PubDate.After b.PubDate = true
        else a.PubDate.Before b.PubDate = true) ∧
    (∀ t : Time, (sortEpisodes s l).filter (fun e => e.PubDate = t) =
      l.filter (fun e => e.PubDate = t)) := by
  refine ⟨sortEpisodes_perm s l, ?_, sortEpisodes_filter s l⟩
  refine (sortEpisodes_sorted s l).imp ?_
  intro a b hba hne
  by_cases hs : s = SortingDesc
  · simp only [hs, if_true, Time.after_eq_before] at hba ⊢
    rcases Time.before_total hne with h | h
    · rw [h] at hba; exact Bool.noConfusion hba
    · exact h
  · simp only [hs, if_false] at hba ⊢
    rcases Time.before_total hne with h | h
    · exact h
    · rw [h] at hba; exact Bool.noConfusion hba

end Podsync

namespace Podsync

/-! ## The conversion loop of `Build` -/

theorem validEntries_nil : validEntries [] = [] := rfl

theorem validEntries_none (rest : List (Option PlaylistEntry)) :
    validEntries (none :: rest) = validEntries rest := by
  simp [validEntries]

theorem validEntries_some_empty (e : PlaylistEntry) (rest : List (Option PlaylistEntry))
    (h : e.ID = "") : validEntries (some e :: rest) = validEntries rest := by
  simp [validEntries, h]

theorem validEntries_some_valid (e : PlaylistEntry) (rest : List (Option PlaylistEntry))
    (h : ¬ e.ID = "") : validEntries (some e :: rest) = e :: validEntries rest := by
  simp [validEntries, h]

theorem mem_validEntries {e : PlaylistEntry} {entries : List (Option PlaylistEntry)}
    (h : e ∈ validEntries entries) : some e ∈ entries ∧ e.ID ≠ "" := by
  induction entries with
  | nil => simp [validEntries] at h
  | cons x xs ih =>
    cases x with
    | none =>
      rw [validEntries_none] at h
      exact ⟨List.mem_cons_of_mem _ (ih h).1, (ih h).2⟩
    | some y =>
      by_cases hy : y.ID = ""
      · rw [validEntries_some_empty y xs hy] at h
        exact ⟨List.mem_cons_of_mem _ (ih h).1, (ih h).2⟩
      · rw [validEntries_some_valid y xs hy] at h
        rcases List.mem_cons.mp h with rfl | h
        · exact ⟨List.mem_cons_self _ _, hy⟩
        · exact ⟨List.mem_cons_of_mem _ (ih h).1, (ih h).2⟩

theorem convertAll_length (feed : Feed) (clock : Nat → Time) (l : List PlaylistEntry)
    (tick : Nat) : (convertAll feed clock l tick).length = l.length := by
  induction l generalizing tick with
  | nil => rfl
  | cons e rest ih => simp [convertAll, ih]

/-- The loop converts, in fetch order, the valid entries up to the point
where the episode count reaches the page size, and at least one of them
when there is one. -/
theorem convertEntries_eq (feed : Feed) (clock : Nat → Time)
    (entries : List (Option PlaylistEntry)) (acc : List Episode) (tick : Nat) :
    convertEntries feed clock entries acc tick =
      acc ++ convertAll feed clock
        ((validEntries entries).take (max 1 (feed.PageSize - acc.length)).toNat) tick := by
  induction entries generalizing acc tick with
  | nil => simp [convertEntries, validEntries, convertAll]
  | cons x xs ih =>
    cases x with
    | none => rw [convertEntries, ih, validEntries_none]
    | some e =>
      by_cases he : e.ID = ""
      · rw [convertEntries, if_pos he, ih, validEntries_some_empty e xs he]
      · rw [convertEntries, if_neg he, validEntries_some_valid e xs he]
        by_cases hlen : ((acc ++ [convertRumbleEntry e feed (clock tick)]).length : Int)
            ≥ feed.PageSize
        · simp only [hlen, if_true]
          have hn : (max 1 (feed.PageSize - acc.length)).toNat = 1 := by
            simp only [List.length_append, List.length_singleton, Nat.cast_add,
              Nat.cast_one] at hlen
            omega
          rw [hn]
          simp [convertAll]
        · simp only [hlen, if_false]
          rw [ih]
          simp only [List.length_append, List.length_singleton, Nat.cast_add,
            Nat.cast_one] at hlen ⊢
          obtain ⟨m, hm⟩ : ∃ m, (max 1 (feed.PageSize - (acc.length : Int))).toNat = m + 1 :=
            ⟨(max 1 (feed.PageSize - (acc.length : Int))).toNat - 1, by omega⟩
          have hm2 : (max 1 (feed.PageSize - ((acc.length : Int) + 1))).toNat = m := by omega
          rw [hm, hm2, List.take_succ_cons, convertAll]
          simp

/-- The episodes of a successful build: the sorted conversions of the first
valid entries. -/
theorem Build_ok_episodes (info : Info) (metadata : PlaylistMetadata) (clock : Nat → Time)
    (cfg : Config) :
    ∃ feed, Build (.ok info) (.ok metadata) clock cfg = .ok feed ∧
      feed.Episodes = sortEpisodes cfg.PlaylistSort
        (convertAll (newFeed info metadata clock cfg) clock
          ((validEntries metadata.Entries).take (max 1 cfg.PageSize).toNat) 1) := by
  refine ⟨_, rfl, ?_⟩
  simp only [convertEntries_eq]
  simp [newFeed]

theorem Build_ok_inv {parsed : Except GoError Info} {fetched : Except GoError PlaylistMetadata}
    {clock : Nat → Time} {cfg : Config} {feed : Feed}
    (h : Build parsed fetched clock cfg = .ok feed) :
    ∃ info metadata, parsed = .ok info ∧ fetched = .ok metadata := by
  cases parsed with
  | error e => simp [Build] at h
  | ok info =>
    cases fetched with
    | error e => simp [Build] at h
    | ok metadata => exact ⟨info, metadata, rfl, rfl⟩

end Podsync

namespace Podsync

/-! ## The scenario of the test, evaluated -/

theorem Build_test :
    Build (.ok testInfo) (.ok testMetadata) testClock testConfig = .ok testFeed := by
  rfl

/-! ## Page size -/

theorem Build_ok_length (info : Info) (metadata : PlaylistMetadata) (clock : Nat → Time)
    (cfg : Config) (feed : Feed)
    (h : Build (.ok info) (.ok metadata) clock cfg = .ok feed) :
    feed.Episodes.length =
      min (max 1 cfg.PageSize).toNat (validEntries metadata.Entries).length := by
  obtain ⟨feed', h1, h2⟩ := Build_ok_episodes info metadata clock cfg
  rw [h1] at h
  cases h
  rw [h2, sortEpisodes_length, convertAll_length, List.length_take]

/-- C1, as the code has it: with a page size `k ≥ 1`, a successful `Build`
returns at most `k` episodes, and exactly `k` when the fetched playlist
has at least `k` valid entries. -/
theorem Build_pageSize_bound (parsed : Except GoError Info) (metadata : PlaylistMetadata)
    (clock : Nat → Time) (cfg : Config) (feed : Feed)
    (hk : 1 ≤ cfg.PageSize)
    (h : Build parsed (.ok metadata) clock cfg = .ok feed) :
    (feed.Episodes.length : Int) ≤ cfg.PageSize ∧
    (cfg.PageSize ≤ ((validEntries metadata.Entries).length : Int) →
      (feed.Episodes.length : Int) = cfg.PageSize) := by
  obtain ⟨info, metadata', rfl, hm⟩ := Build_ok_inv h
  have hlen := Build_ok_length info metadata clock cfg feed h
  omega

/-- C1 witness: the scenario of the test, page size 1 and two valid entries. -/
theorem Build_pageSize_bound_witness :
    (1 : Int) ≤ testConfig.PageSize ∧
    Build (.ok testInfo) (.ok testMetadata) testClock testConfig = .ok testFeed ∧
    (testFeed.Episodes.length : Int) ≤ testConfig.PageSize ∧
    (testConfig.PageSize ≤ ((validEntries testMetadata.Entries).length : Int) →
      (testFeed.Episodes.length : Int) = testConfig.PageSize) :=
  ⟨by decide, Build_test,
    Build_pageSize_bound (.ok testInfo) testMetadata testClock testConfig testFeed
      (by decide) Build_test⟩

/-- C1 counterexample: with page size 0 the scenario of the test returns one
episode, and with page size -1 an empty playlist returns a feed whose
episode count 0 exceeds the page size. -/
theorem Build_pageSize_counterexample :
    (∃ feed, Build (.ok testInfo) (.ok testMetadata) testClock
        { testConfig with PageSize := 0 } = .ok feed ∧
      feed.Episodes.length = 1 ∧ ¬ ((feed.Episodes.length : Int) ≤ 0)) ∧
    (∃ feed, Build (.ok testInfo) (.ok { testMetadata with Entries := [] }) testClock
        { testConfig with PageSize := -1 } = .ok feed ∧
      feed.Episodes.length = 0 ∧ ¬ ((feed.Episodes.length : Int) ≤ -1)) :=
  ⟨⟨_, rfl, by decide⟩, ⟨_, rfl, by decide⟩⟩

/-! ## Truncation in fetch order -/

/-- C2: for a page size `k ≥ 1` the episodes of a successful `Build` are a
permutation of the conversions of the first `min k v` valid entries in fetch
order, `v` being the number of valid entries; in the scenario of the test
(abc123 at T, def456 one hour later, page size 1, descending) the only
episode is abc123 with its webpage URL. -/
theorem Build_truncates_in_fetch_order (info : Info) (metadata : PlaylistMetadata)
    (clock : Nat → Time) (cfg : Config) (feed : Feed)
    (hk : 1 ≤ cfg.PageSize)
    (h : Build (.ok info) (.ok metadata) clock cfg = .ok feed) :
    feed.Episodes.Perm
      (convertAll (newFeed info metadata clock cfg) clock
        ((validEntries metadata.Entries).take
          (min cfg.PageSize.toNat (validEntries metadata.Entries).length)) 1) ∧
    (episodesOf (Build (.ok testInfo) (.ok testMetadata) testClock testConfig)).map
      (fun e => (e.ID, e.VideoURL)) = [("abc123", "https://rumble.com/vabc123")] := by
  refine ⟨?_, rfl⟩
  obtain ⟨feed', h1, h2⟩ := Build_ok_episodes info metadata clock cfg
  rw [h1] at h
  cases h
  rw [h2]
  have hmax : (max 1 cfg.PageSize).toNat = cfg.PageSize.toNat := by omega
  have htake : ∀ (n : Nat) (l : List PlaylistEntry), l.take (min n l.length) = l.take n := by
    intro n l
    rcases Nat.le_total n l.length with hn | hn
    · rw [Nat.min_eq_left hn]
    · rw [Nat.min_eq_right hn, List.take_length, List.take_of_length_le hn]
  rw [hmax, htake]
  exact sortEpisodes_perm _ _

/-- C2 witness: the scenario of the test. -/
theorem Build_truncates_in_fetch_order_witness :
    (1 : Int) ≤ testConfig.PageSize ∧
    testFeed.Episodes.Perm
      (convertAll (newFeed testInfo testMetadata testClock testConfig) testClock
        ((validEntries testMetadata.Entries).take
          (min testConfig.PageSize.toNat (validEntries testMetadata.Entries).length)) 1) :=
  ⟨by decide,
    (Build_truncates_in_fetch_order testInfo testMetadata testClock testConfig testFeed
      (by decide) Build_test).1⟩

end Podsync

namespace Podsync

/-! ## The end-to-end scenario -/

theorem sortEpisodes_singleton (s : Sorting) (ep : Episode) : sortEpisodes s [ep] = [ep] := by
  simp [sortEpisodes, sliceStable, stableInsert]

/-- C3, as the code has it: for a playlist titled "Channel title" with
author "Channel author" and the two entries abc123 (primary timestamp T) and
def456 (T + 1h) in fetch order, built with page size 1 and descending sort,
`Build` returns exactly one episode, and its identifier is abc123, the first
entry in fetch order. -/
theorem Build_scenario_first_entry (info : Info) (metadata : PlaylistMetadata)
    (clock : Nat → Time) (cfg : Config) (e1 e2 : PlaylistEntry) (T : Int)
    (hTitle : metadata.Title = "Channel title")
    (hAuthor : metadata.Channel = "Channel author")
    (hEntries : metadata.Entries = [some e1, some e2])
    (hid1 : e1.ID = "abc123") (_hts1 : e1.Timestamp = T)
    (hid2 : e2.ID = "def456") (_hts2 : e2.Timestamp = T + 3600)
    (hk : cfg.PageSize = 1) (_hs : cfg.PlaylistSort = SortingDesc) :
    ∃ feed, Build (.ok info) (.ok metadata) clock cfg = .ok feed ∧
      feed.Title = "Channel title" ∧ feed.Author = "Channel author" ∧
      feed.Episodes.length = 1 ∧ feed.Episodes.map (fun e => e.ID) = ["abc123"] := by
  obtain ⟨feed, h1, h2⟩ := Build_ok_episodes info metadata clock cfg
  have ht : feed.Title = "Channel title" ∧ feed.Author = "Channel author" := by
    simp only [Build] at h1
    cases h1
    simp [newFeed, hTitle, hAuthor]
  refine ⟨feed, h1, ht.1, ht.2, ?_⟩
  have hv : validEntries metadata.Entries = [e1, e2] := by
    rw [hEntries, validEntries_some_valid e1 _ (by rw [hid1]; decide),
      validEntries_some_valid e2 _ (by rw [hid2]; decide), validEntries_nil]
  have hn : (max 1 cfg.PageSize).toNat = 1 := by rw [hk]; rfl
  rw [hv, hn] at h2
  simp only [List.take_succ_cons, List.take_zero, convertAll, sortEpisodes_singleton] at h2
  rw [h2]
  simp [convertRumbleEntry, hid1]

/-- C3 witness: the scenario of the test. -/
theorem Build_scenario_first_entry_witness :
    ∃ feed, Build (.ok testInfo) (.ok testMetadata) testClock testConfig = .ok feed ∧
      feed.Title = "Channel title" ∧ feed.Author = "Channel author" ∧
      feed.Episodes.length = 1 ∧ feed.Episodes.map (fun e => e.ID) = ["abc123"] :=
  Build_scenario_first_entry testInfo testMetadata testClock testConfig testEntry1 testEntry2
    1700000000 rfl rfl rfl rfl rfl rfl rfl rfl rfl

/-- C3 counterexample: in the scenario the one episode returned is abc123,
not def456. -/
theorem Build_scenario_counterexample :
    ∃ feed, Build (.ok testInfo) (.ok testMetadata) testClock testConfig = .ok feed ∧
      feed.Episodes.map (fun e => e.ID) = ["abc123"] ∧
      feed.Episodes.map (fun e => e.ID) ≠ ["def456"] :=
  ⟨testFeed, rfl, rfl, by decide⟩

/-! ## Invalid entries -/

theorem mem_convertAll {feed : Feed} {clock : Nat → Time} {l : List PlaylistEntry}
    {tick : Nat} {ep : Episode} (h : ep ∈ convertAll feed clock l tick) :
    ∃ e n, e ∈ l ∧ ep = convertRumbleEntry e feed (clock n) := by
  induction l generalizing tick with
  | nil => simp [convertAll] at h
  | cons x xs ih =>
    rw [convertAll] at h
    rcases List.mem_cons.mp h with rfl | h
    · exact ⟨x, tick, List.mem_cons_self _ _, rfl⟩
    · obtain ⟨e, n, he, hep⟩ := ih h
      exact ⟨e, n, List.mem_cons_of_mem _ he, hep⟩

theorem mem_Build_episodes {info : Info} {metadata : PlaylistMetadata} {clock : Nat → Time}
    {cfg : Config} {feed : Feed} {ep : Episode}
    (h : Build (.ok info) (.ok metadata) clock cfg = .ok feed) (hep : ep ∈ feed.Episodes) :
    ∃ e n, some e ∈ metadata.Entries ∧ e.ID ≠ "" ∧
      ep = convertRumbleEntry e (newFeed info metadata clock cfg) (clock n) := by
  obtain ⟨feed', h1, h2⟩ := Build_ok_episodes info metadata clock cfg
  rw [h1] at h
  cases h
  rw [h2] at hep
  obtain ⟨e, n, he, rfl⟩ := mem_convertAll ((sortEpisodes_perm _ _).subset hep)
  have := mem_validEntries (List.mem_of_mem_take he)
  exact ⟨e, n, this.1, this.2, rfl⟩

/-- C4: two fetched entry sequences with the same valid entries in the
same order (one arises from the other by inserting or deleting absent
entries and entries with an empty identifier, anywhere) give the same
result of `Build`; and every episode of a returned feed is the conversion of
a present entry with a non-empty identifier. -/
theorem Build_ignores_invalid_entries (parsed : Except GoError Info)
    (metadata : PlaylistMetadata) (entries : List (Option PlaylistEntry))
    (clock : Nat → Time) (cfg : Config)
    (hvalid : validEntries entries = validEntries metadata.Entries) :
    Build parsed (.ok { metadata with Entries := entries }) clock cfg =
      Build parsed (.ok metadata) clock cfg ∧
    (∀ feed, Build parsed (.ok metadata) clock cfg = .ok feed →
      ∀ ep ∈ feed.Episodes, ep.ID ≠ "" ∧
        ∃ e now, some e ∈ metadata.Entries ∧ e.ID ≠ "" ∧
          ep = convertRumbleEntry e feed now) := by
  constructor
  · cases parsed with
    | error err => rfl
    | ok info =>
      simp only [Build]
      rw [convertEntries_eq, convertEntries_eq]
      have hf : newFeed info { metadata with Entries := entries } clock cfg =
          newFeed info metadata clock cfg := rfl
      rw [hf, hvalid]
  · intro feed h ep hep
    obtain ⟨info, metadata', rfl, hm⟩ := Build_ok_inv h
    obtain ⟨e, n, he, hid, rfl⟩ := mem_Build_episodes h hep
    refine ⟨hid, e, clock n, he, hid, ?_⟩
    have hq : feed.Quality = (newFeed info metadata clock cfg).Quality ∧
        feed.Format = (newFeed info metadata clock cfg).Format := by
      simp only [Build] at h
      cases h
      exact ⟨rfl, rfl⟩
    simp [convertRumbleEntry, estimateRumbleSize, hq.1, hq.2]

/-- C4 witness: the entries of the test with an absent entry in front, an
entry without identifier in between and an absent entry at the end. -/
theorem Build_ignores_invalid_entries_witness :
    validEntries [none, some testEntry1, some { testEntry2 with ID := "" },
        some testEntry2, none] = validEntries testMetadata.Entries ∧
    Build (.ok testInfo)
        (.ok { testMetadata with
          Entries := [none, some testEntry1, some { testEntry2 with ID := "" },
            some testEntry2, none] })
        testClock { testConfig with PageSize := 2 } =
      Build (.ok testInfo) (.ok testMetadata) testClock { testConfig with PageSize := 2 } :=
  ⟨by decide,
    (Build_ignores_invalid_entries (.ok testInfo) testMetadata
      [none, some testEntry1, some { testEntry2 with ID := "" }, some testEntry2, none]
      testClock { testConfig with PageSize := 2 } (by decide)).1⟩

end Podsync

namespace Podsync

/-! ## The publish date of the feed -/

theorem Time.before_irrefl (t : Time) : t.Before t = false := by
  rw [Bool.eq_false_iff]
  intro h
  rw [Time.before_iff] at h
  omega

theorem Build_ok_pubDate {info : Info} {metadata : PlaylistMetadata} {clock : Nat → Time}
    {cfg : Config} {feed : Feed}
    (h : Build (.ok info) (.ok metadata) clock cfg = .ok feed) :
    feed.PubDate =
      match feed.Episodes with
      | first :: _ => first.PubDate
      | [] => Time.zero := by
  have hp : (newFeed info metadata clock cfg).PubDate = Time.zero := rfl
  simp only [Build, hp] at h
  cases h
  simp only
  generalize sortEpisodes (newFeed info metadata clock cfg).PlaylistSort
    (convertEntries (newFeed info metadata clock cfg) clock metadata.Entries
      (newFeed info metadata clock cfg).Episodes 1) = eps
  cases eps with
  | nil => simp
  | cons first rest => simp [Time.IsZero, Time.zero]

/-- C6: after a successful `Build`, a feed without episodes has the zero
publish date; otherwise the publish date is that of the first episode, and
no episode of the feed is later than it when the sort is descending, none
earlier than it for every other sort value. -/
theorem Build_pubDate (parsed : Except GoError Info) (fetched : Except GoError PlaylistMetadata)
    (clock : Nat → Time) (cfg : Config) (feed : Feed)
    (h : Build parsed fetched clock cfg = .ok feed) :
    (feed.Episodes = [] → feed.PubDate = Time.zero) ∧
    (∀ first rest, feed.Episodes = first :: rest →
      feed.PubDate = first.PubDate ∧
      (cfg.PlaylistSort = SortingDesc →
        ∀ ep ∈ feed.Episodes, ep.PubDate.After feed.PubDate = false) ∧
      (cfg.PlaylistSort ≠ SortingDesc →
        ∀ ep ∈ feed.Episodes, ep.PubDate.Before feed.PubDate = false)) := by
  obtain ⟨info, metadata, rfl, rfl⟩ := Build_ok_inv h
  obtain ⟨feed', h1, h2⟩ := Build_ok_episodes info metadata clock cfg
  have hsorted := sortEpisodes_sorted cfg.PlaylistSort
    (convertAll (newFeed info metadata clock cfg) clock
      ((validEntries metadata.Entries).take (max 1 cfg.PageSize).toNat) 1)
  rw [h1] at h
  cases h
  rw [← h2] at hsorted
  have hpub := Build_ok_pubDate h1
  constructor
  · intro hnil
    rw [hpub, hnil]
  · intro first rest hcons
    rw [hcons] at hpub hsorted
    simp only at hpub
    rw [List.pairwise_cons] at hsorted
    refine ⟨hpub, ?_, ?_⟩
    · intro hs ep hep
      rw [hcons] at hep
      rw [hpub]
      rcases List.mem_cons.mp hep with rfl | hep
      · rw [Time.after_eq_before]; exact Time.before_irrefl _
      · simpa [hs] using hsorted.1 ep hep
    · intro hs ep hep
      rw [hcons] at hep
      rw [hpub]
      rcases List.mem_cons.mp hep with rfl | hep
      · exact Time.before_irrefl _
      · simpa [hs] using hsorted.1 ep hep

/-- C6 witness: the scenario of the test; the feed's publish date is that
of its only episode. -/
theorem Build_pubDate_witness :
    Build (.ok testInfo) (.ok testMetadata) testClock testConfig = .ok testFeed ∧
    testFeed.PubDate = timeUnix 1700000000 ∧
    (∀ ep ∈ testFeed.Episodes, ep.PubDate.After testFeed.PubDate = false) :=
  ⟨Build_test,
    ((Build_pubDate (.ok testInfo) (.ok testMetadata) testClock testConfig testFeed
      Build_test).2 _ _ rfl).1,
    ((Build_pubDate (.ok testInfo) (.ok testMetadata) testClock testConfig testFeed
      Build_test).2 _ _ rfl).2.1 rfl⟩

/-! ## Errors -/

/-- C7: a failure of the locator resolver is returned unchanged, whatever
the downloader returns; otherwise a failure of the downloader is returned
wrapped with the context "failed to load rumble metadata"; otherwise
`Build` returns a feed. -/
theorem Build_fails_iff_collaborator_fails :
    (∀ err fetched clock cfg, Build (.error err) fetched clock cfg = .error err) ∧
    (∀ info err clock cfg, Build (.ok info) (.error err) clock cfg =
      .error (GoError.wrap err "failed to load rumble metadata")) ∧
    (∀ info metadata clock cfg, ∃ feed,
      Build (.ok info) (.ok metadata) clock cfg = .ok feed) :=
  ⟨fun _ _ _ _ => rfl, fun _ _ _ _ => rfl, fun _ _ _ _ => ⟨_, rfl⟩⟩

end Podsync

namespace Podsync

/-! ## `publishedAt` -/

theorem unixToInternal_eq : unixToInternal = 62135596800 := by decide

theorem wrapInt64_of_isInt64 {x : Int} (h : IsInt64 x) : wrapInt64 x = x := by
  unfold IsInt64 at h
  unfold wrapInt64
  omega

theorem timeUnix_Unix (s : Int) (h : IsInt64 s) : (timeUnix s).Unix = s := by
  unfold IsInt64 at h
  simp only [Time.Unix, timeUnix, internalToUnix, unixToInternal_eq, wrapInt64]
  omega

theorem timeUnix_isZero (s : Int) (h : IsInt64 s) (hpos : 0 < s) :
    (timeUnix s).IsZero = false := by
  unfold IsInt64 at h
  simp only [Time.IsZero, timeUnix, unixToInternal_eq, wrapInt64, Bool.and_eq_false_imp,
    beq_iff_eq]
  omega

/-- C8: `publishedAt` takes the primary timestamp when it is positive,
whatever the other two sources hold, else the release timestamp when it
is positive, each read as Unix seconds; else the upload date when it is
non-empty and parses with the layout `20060102`; else the zero time. -/
theorem publishedAt_priority (e : PlaylistEntry)
    (hts : IsInt64 e.Timestamp) (hrel : IsInt64 e.ReleaseTimestamp) :
    (0 < e.Timestamp →
      publishedAt (some e) = timeUnix e.Timestamp ∧
      (publishedAt (some e)).Unix = e.Timestamp ∧ (publishedAt (some e)).nsec = 0) ∧
    (e.Timestamp ≤ 0 → 0 < e.ReleaseTimestamp →
      publishedAt (some e) = timeUnix e.ReleaseTimestamp ∧
      (publishedAt (some e)).Unix = e.ReleaseTimestamp ∧ (publishedAt (some e)).nsec = 0) ∧
    (e.Timestamp ≤ 0 → e.ReleaseTimestamp ≤ 0 → e.UploadDate ≠ "" →
      ∀ t, timeParse e.UploadDate = some t → publishedAt (some e) = t) ∧
    (e.Timestamp ≤ 0 → e.ReleaseTimestamp ≤ 0 →
      (e.UploadDate = "" ∨ timeParse e.UploadDate = none) →
      publishedAt (some e) = Time.zero) := by
  refine ⟨?_, ?_, ?_, ?_⟩
  · intro h
    have hp : publishedAt (some e) = timeUnix e.Timestamp := by simp [publishedAt, h]
    rw [hp]
    exact ⟨rfl, timeUnix_Unix _ hts, rfl⟩
  · intro h1 h2
    have hp : publishedAt (some e) = timeUnix e.ReleaseTimestamp := by
      simp [publishedAt, not_lt.mpr h1, h2]
    rw [hp]
    exact ⟨rfl, timeUnix_Unix _ hrel, rfl⟩
  · intro h1 h2 h3 t ht
    simp [publishedAt, not_lt.mpr h1, not_lt.mpr h2, h3, ht]
  · intro h1 h2 h3
    rcases h3 with h3 | h3
    · simp [publishedAt, not_lt.mpr h1, not_lt.mpr h2, h3]
    · simp [publishedAt, not_lt.mpr h1, not_lt.mpr h2, h3]

/-- C8 witness: an entry with a positive primary and a positive release
timestamp (and an upload date) resolves to the primary one. -/
theorem publishedAt_priority_witness :
    publishedAt (some testEntryAllSources) = timeUnix 1700000000 ∧
    (publishedAt (some testEntryAllSources)).Unix = 1700000000 :=
  ⟨((publishedAt_priority testEntryAllSources (by decide) (by decide)).1 (by decide)).1,
   ((publishedAt_priority testEntryAllSources (by decide) (by decide)).1 (by decide)).2.1⟩

end Podsync

namespace Podsync

/-! ## Calendar arithmetic of `time.Date` -/

theorem isLeap_eq_leapYear (y : Nat) : isLeap (y : Int) = leapYear y := by
  rw [Bool.eq_iff_iff]
  simp only [isLeap, leapYear, Bool.and_eq_true, Bool.or_eq_true, beq_iff_eq, bne_iff_ne, ne_eq]
  omega

theorem daysSinceEpoch_succ (y : Nat) :
    daysSinceEpoch ((y + 1 : Nat) : Int) = daysSinceEpoch (y : Int) + yearLength y := by
  simp only [daysSinceEpoch, absoluteZeroYear, yearLength, leapYear]
  have h1 : (((y + 1 : Nat) : Int) - -292277022399).toNat = y + 292277022400 := by omega
  have h0 : ((y : Int) - -292277022399).toNat = y + 292277022399 := by omega
  rw [h1, h0]
  split <;> rename_i h <;>
    simp only [Bool.and_eq_true, Bool.or_eq_true, beq_iff_eq, bne_iff_ne, ne_eq] at h <;> omega

theorem daysSinceEpoch_eq (y : Nat) :
    daysSinceEpoch (y : Int) = 106751990353566 + daysBeforeYear y := by
  induction y with
  | zero => decide
  | succ n ih => rw [daysSinceEpoch_succ, ih, daysBeforeYear]; omega

theorem daysBeforeYear_closed (y : Nat) :
    daysBeforeYear y + (y + 99) / 100 = 365 * y + (y + 3) / 4 + (y + 399) / 400 := by
  induction y with
  | zero => decide
  | succ n ih =>
    rw [daysBeforeYear]
    simp only [yearLength, leapYear]
    split <;> rename_i h <;>
      simp only [Bool.and_eq_true, Bool.or_eq_true, beq_iff_eq, bne_iff_ne, ne_eq] at h <;> omega

theorem dayNumber_epoch : dayNumber 1970 1 1 = 719528 := by
  have := daysBeforeYear_closed 1970
  simp only [dayNumber, daysBeforeMonth, monthLength]
  omega

theorem dayNumber_year_one : dayNumber 1 1 1 = 366 := by decide


theorem daysBeforeMonth_eq (y m : Nat) (hm1 : 1 ≤ m) (hm12 : m ≤ 12) :
    daysBeforeMonth y m =
      daysBefore.getD (m - 1) 0 + (if isLeap (y : Int) = true ∧ 3 ≤ m then 1 else 0) := by
  rw [isLeap_eq_leapYear]
  interval_cases m <;> cases hl : leapYear y <;>
    simp [daysBeforeMonth, monthLength, daysBefore, hl]

theorem daysIn_eq_monthLength (y m : Nat) (hm1 : 1 ≤ m) (hm12 : m ≤ 12) :
    daysIn m (y : Int) = monthLength y m := by
  unfold daysIn
  rw [isLeap_eq_leapYear]
  interval_cases m <;> cases hl : leapYear y <;> simp [monthLength, daysBefore, hl]

theorem monthLength_le (y m : Nat) : monthLength y m ≤ 31 := by
  unfold monthLength
  split <;> try omega
  split <;> omega

theorem daysBeforeMonth_le (y m : Nat) (hm12 : m ≤ 12) : daysBeforeMonth y m ≤ 335 := by
  interval_cases m <;> cases hl : leapYear y <;>
    simp [daysBeforeMonth, monthLength, hl]

theorem absoluteToInternal_eq : absoluteToInternal = -9223371966579724800 := by decide

/-- Go `Date` at a valid date: the internal seconds are 86400 for each day
since 0001-01-01. -/
theorem Date_eq (y m d : Nat) (h : ValidDate y m d) :
    Date (y : Int) m d = ⟨86400 * ((dayNumber y m d : Int) - 366), 0⟩ := by
  obtain ⟨hy, hm1, hm12, hd1, hd⟩ := h
  have hmonth := daysBeforeMonth_eq y m hm1 hm12
  have hmle := daysBeforeMonth_le y m hm12
  have hdle := monthLength_le y m
  have hyear := daysSinceEpoch_eq y
  have hclosed := daysBeforeYear_closed y
  simp only [Date, dayNumber, wrapInt64, absoluteToInternal_eq, internalToUnix,
    unixToInternal_eq, Time.mk.injEq, and_true]
  by_cases hl : isLeap (y : Int) = true ∧ 3 ≤ m
  · simp only [hl, and_self, if_true] at hmonth ⊢
    push_cast
    omega
  · simp only [hl, if_false] at hmonth ⊢
    push_cast
    omega

theorem Date_Unix (y m d : Nat) (h : ValidDate y m d) :
    (Date (y : Int) m d).Unix = midnightUnix y m d := by
  rw [Date_eq y m d h]
  obtain ⟨hy, hm1, hm12, hd1, hd⟩ := h
  have hmle := daysBeforeMonth_le y m hm12
  have hdle := monthLength_le y m
  have hclosed := daysBeforeYear_closed y
  simp only [midnightUnix, dayNumber_epoch]
  simp only [Time.Unix, wrapInt64, internalToUnix, unixToInternal_eq, dayNumber]
  push_cast
  omega

end Podsync

namespace Podsync

/-! ## The upload-date parser -/

theorem digitChar_toNat (n : Nat) : (digitChar n).toNat = 48 + n % 10 := by
  unfold digitChar
  have h : n % 10 < 10 := Nat.mod_lt _ (by decide)
  generalize n % 10 = k at h
  interval_cases k <;> rfl

theorem digitVal_digitChar (n : Nat) : digitVal (digitChar n) = n % 10 := by
  rw [digitVal, digitChar_toNat]
  omega

theorem digitChar_eq_of_toNat (c : Char) (n : Nat) (h : c.toNat = 48 + n % 10) :
    digitChar n = c := by
  rw [digitChar, ← h, Char.ofNat_toNat]

theorem isDigit_zero_cons (c : Char) (r : List Char) :
    isDigit (c :: r) 0 = true ↔ 48 ≤ c.toNat ∧ c.toNat ≤ 57 := by
  simp [isDigit]

theorem isDigit_one_cons (c0 c1 : Char) (r : List Char) :
    isDigit (c0 :: c1 :: r) 1 = true ↔ 48 ≤ c1.toNat ∧ c1.toNat ≤ 57 := by
  simp [isDigit]

theorem getnum_fixed_digits (c0 c1 : Char) (r : List Char)
    (h0 : 48 ≤ c0.toNat ∧ c0.toNat ≤ 57) (h1 : 48 ≤ c1.toNat ∧ c1.toNat ≤ 57) :
    getnum (c0 :: c1 :: r) true = some (digitVal c0 * 10 + digitVal c1, r) := by
  have e0 := (isDigit_zero_cons c0 (c1 :: r)).mpr h0
  have e1 := (isDigit_one_cons c0 c1 r).mpr h1
  simp [getnum, e0, e1]

theorem getnum_fixed_some {s r : List Char} {n : Nat} (h : getnum s true = some (n, r)) :
    ∃ c0 c1, s = c0 :: c1 :: r ∧ (48 ≤ c0.toNat ∧ c0.toNat ≤ 57) ∧
      (48 ≤ c1.toNat ∧ c1.toNat ≤ 57) ∧ n = digitVal c0 * 10 + digitVal c1 := by
  unfold getnum at h
  by_cases e0 : isDigit s 0 = true
  · by_cases e1 : isDigit s 1 = true
    · match s, e0, e1, h with
      | c0 :: c1 :: rest, e0, e1, h =>
        simp only [e0, e1, Bool.not_true, Bool.false_eq_true, if_false, Option.some.injEq,
          Prod.mk.injEq] at h
        obtain ⟨hn, hr⟩ := h
        subst hr
        exact ⟨c0, c1, rfl, (isDigit_zero_cons _ _).mp e0, (isDigit_one_cons _ _ _).mp e1,
          hn.symm⟩
      | [c0], e0, e1, h => simp [isDigit] at e1
      | [], e0, e1, h => simp [isDigit] at e0
    · simp [e0, e1] at h
  · simp [e0] at h

theorem leadingInt_digit (c : Char) (r : List Char) (x : Nat)
    (hc : 48 ≤ c.toNat ∧ c.toNat ≤ 57) (hx : x ≤ 999) :
    leadingInt (c :: r) x = leadingInt r (x * 10 + digitVal c) := by
  have hv : digitVal c ≤ 9 := by unfold digitVal; omega
  rw [leadingInt, if_pos hc, if_neg (by omega)]
  simp only
  rw [if_neg (by omega)]

theorem leadingInt_nondigit (c : Char) (r : List Char) (x : Nat)
    (hc : ¬ (48 ≤ c.toNat ∧ c.toNat ≤ 57)) :
    leadingInt (c :: r) x = some (x, c :: r) := by
  rw [leadingInt, if_neg hc]

theorem not_sign_of_digit (c : Char) (hc : 48 ≤ c.toNat ∧ c.toNat ≤ 57) :
    (c == '-') = false ∧ (c == '+') = false := by
  constructor
  · rw [beq_eq_false_iff_ne]
    rintro rfl
    revert hc
    decide
  · rw [beq_eq_false_iff_ne]
    rintro rfl
    revert hc
    decide

theorem atoi_four_digits (c0 c1 c2 c3 : Char)
    (h0 : 48 ≤ c0.toNat ∧ c0.toNat ≤ 57) (h1 : 48 ≤ c1.toNat ∧ c1.toNat ≤ 57)
    (h2 : 48 ≤ c2.toNat ∧ c2.toNat ≤ 57) (h3 : 48 ≤ c3.toNat ∧ c3.toNat ≤ 57) :
    atoi [c0, c1, c2, c3] =
      some (((((0 * 10 + digitVal c0) * 10 + digitVal c1) * 10 + digitVal c2) * 10
        + digitVal c3 : Nat) : Int) := by
  have hv0 : digitVal c0 ≤ 9 := by unfold digitVal; omega
  have hv1 : digitVal c1 ≤ 9 := by unfold digitVal; omega
  have hv2 : digitVal c2 ≤ 9 := by unfold digitVal; omega
  have hs := not_sign_of_digit c0 h0
  simp only [atoi, hs.1, hs.2, Bool.or_self, Bool.false_eq_true, if_false]
  rw [leadingInt_digit c0 _ 0 h0 (by omega), leadingInt_digit c1 _ _ h1 (by omega),
    leadingInt_digit c2 _ _ h2 (by omega), leadingInt_digit c3 _ _ h3 (by omega), leadingInt]
  simp

theorem atoi_four_some {c0 c1 c2 c3 : Char} {y : Int}
    (h0 : 48 ≤ c0.toNat ∧ c0.toNat ≤ 57) (h : atoi [c0, c1, c2, c3] = some y) :
    (48 ≤ c1.toNat ∧ c1.toNat ≤ 57) ∧ (48 ≤ c2.toNat ∧ c2.toNat ≤ 57) ∧
      (48 ≤ c3.toNat ∧ c3.toNat ≤ 57) := by
  have hv0 : digitVal c0 ≤ 9 := by unfold digitVal; omega
  have hs := not_sign_of_digit c0 h0
  simp only [atoi, hs.1, hs.2, Bool.or_self, Bool.false_eq_true, if_false] at h
  rw [leadingInt_digit c0 _ 0 h0 (by omega)] at h
  by_cases h1 : 48 ≤ c1.toNat ∧ c1.toNat ≤ 57
  · have hv1 : digitVal c1 ≤ 9 := by unfold digitVal; omega
    rw [leadingInt_digit c1 _ _ h1 (by omega)] at h
    by_cases h2 : 48 ≤ c2.toNat ∧ c2.toNat ≤ 57
    · have hv2 : digitVal c2 ≤ 9 := by unfold digitVal; omega
      rw [leadingInt_digit c2 _ _ h2 (by omega)] at h
      by_cases h3 : 48 ≤ c3.toNat ∧ c3.toNat ≤ 57
      · exact ⟨h1, h2, h3⟩
      · rw [leadingInt_nondigit c3 _ _ h3] at h
        simp at h
    · rw [leadingInt_nondigit c2 _ _ h2] at h
      simp at h
  · rw [leadingInt_nondigit c1 _ _ h1] at h
    simp at h

/-- The parser on eight digits. -/
theorem timeParse_digits (c0 c1 c2 c3 c4 c5 c6 c7 : Char)
    (h0 : 48 ≤ c0.toNat ∧ c0.toNat ≤ 57) (h1 : 48 ≤ c1.toNat ∧ c1.toNat ≤ 57)
    (h2 : 48 ≤ c2.toNat ∧ c2.toNat ≤ 57) (h3 : 48 ≤ c3.toNat ∧ c3.toNat ≤ 57)
    (h4 : 48 ≤ c4.toNat ∧ c4.toNat ≤ 57) (h5 : 48 ≤ c5.toNat ∧ c5.toNat ≤ 57)
    (h6 : 48 ≤ c6.toNat ∧ c6.toNat ≤ 57) (h7 : 48 ≤ c7.toNat ∧ c7.toNat ≤ 57) :
    timeParse (String.mk [c0, c1, c2, c3, c4, c5, c6, c7]) =
      if digitVal c4 * 10 + digitVal c5 ≤ 0 ∨ 12 < digitVal c4 * 10 + digitVal c5 then none
      else if digitVal c6 * 10 + digitVal c7 < 1 ∨
          digitVal c6 * 10 + digitVal c7 >
            daysIn (digitVal c4 * 10 + digitVal c5)
              (((((0 * 10 + digitVal c0) * 10 + digitVal c1) * 10 + digitVal c2) * 10
                + digitVal c3 : Nat) : Int) then none
      else some (Date
        (((((0 * 10 + digitVal c0) * 10 + digitVal c1) * 10 + digitVal c2) * 10
          + digitVal c3 : Nat) : Int)
        (digitVal c4 * 10 + digitVal c5) (digitVal c6 * 10 + digitVal c7)) := by
  have e0 := (isDigit_zero_cons c0 [c1, c2, c3, c4, c5, c6, c7]).mpr h0
  simp only [timeParse, List.length_cons, List.length_nil, e0, List.take_succ_cons,
    List.take_zero, List.drop_succ_cons, List.drop_zero,
    atoi_four_digits c0 c1 c2 c3 h0 h1 h2 h3, getnum_fixed_digits c4 c5 _ h4 h5,
    getnum_fixed_digits c6 c7 _ h6 h7]
  simp

end Podsync

namespace Podsync

theorem timeParse_some_shape {s : String} {t : Time} (h : timeParse s = some t) :
    ∃ c0 c1 c2 c3 c4 c5 c6 c7, s = String.mk [c0, c1, c2, c3, c4, c5, c6, c7] ∧
      (48 ≤ c0.toNat ∧ c0.toNat ≤ 57) ∧ (48 ≤ c1.toNat ∧ c1.toNat ≤ 57) ∧
      (48 ≤ c2.toNat ∧ c2.toNat ≤ 57) ∧ (48 ≤ c3.toNat ∧ c3.toNat ≤ 57) ∧
      (48 ≤ c4.toNat ∧ c4.toNat ≤ 57) ∧ (48 ≤ c5.toNat ∧ c5.toNat ≤ 57) ∧
      (48 ≤ c6.toNat ∧ c6.toNat ≤ 57) ∧ (48 ≤ c7.toNat ∧ c7.toNat ≤ 57) := by
  obtain ⟨l⟩ := s
  simp only [timeParse] at h
  split at h
  · cases h
  · rename_i hcond
    split at h
    · cases h
    · rename_i year hyear
      split at h
      · cases h
      · rename_i month r1 hmonth
        split at h
        · cases h
        · split at h
          · cases h
          · rename_i day r2 hday
            split at h
            · cases h
            · rename_i hrest
              obtain ⟨c4, c5, hr, h4, h5, -⟩ := getnum_fixed_some hmonth
              obtain ⟨c6, c7, hr1, h6, h7, -⟩ := getnum_fixed_some hday
              have hr2 : r2 = [] := List.length_eq_zero.mp (by simpa using hrest)
              subst hr2 hr1
              match l, hcond, hyear, hr with
              | c0 :: c1 :: c2 :: c3 :: rest, hcond, hyear, hr =>
                simp only [List.drop_succ_cons, List.drop_zero] at hr
                subst hr
                simp only [List.take_succ_cons, List.take_zero] at hyear
                have h0 : 48 ≤ c0.toNat ∧ c0.toNat ≤ 57 := by
                  rw [← isDigit_zero_cons c0 [c1, c2, c3, c4, c5, c6, c7]]
                  simpa using hcond
                obtain ⟨h1, h2, h3⟩ := atoi_four_some h0 hyear
                exact ⟨c0, c1, c2, c3, c4, c5, c6, c7, rfl, h0, h1, h2, h3, h4, h5, h6, h7⟩
              | [_, _, _], hcond, _, _ => simp at hcond
              | [_, _], hcond, _, _ => simp at hcond
              | [_], hcond, _, _ => simp at hcond
              | [], hcond, _, _ => simp at hcond

theorem digitVal_le (c : Char) (h : 48 ≤ c.toNat ∧ c.toNat ≤ 57) :
    digitVal c ≤ 9 ∧ c.toNat = 48 + digitVal c := by
  unfold digitVal
  omega

/-- A successful parse comes from the rendering of a valid date and is
the `Date` of it. -/
theorem timeParse_some {s : String} {t : Time} (h : timeParse s = some t) :
    ∃ y m d, ValidDate y m d ∧ s = renderYYYYMMDD y m d ∧ t = Date (y : Int) m d := by
  obtain ⟨c0, c1, c2, c3, c4, c5, c6, c7, rfl, h0, h1, h2, h3, h4, h5, h6, h7⟩ :=
    timeParse_some_shape h
  rw [timeParse_digits c0 c1 c2 c3 c4 c5 c6 c7 h0 h1 h2 h3 h4 h5 h6 h7] at h
  obtain ⟨v0, t0⟩ := digitVal_le c0 h0
  obtain ⟨v1, t1⟩ := digitVal_le c1 h1
  obtain ⟨v2, t2⟩ := digitVal_le c2 h2
  obtain ⟨v3, t3⟩ := digitVal_le c3 h3
  obtain ⟨v4, t4⟩ := digitVal_le c4 h4
  obtain ⟨v5, t5⟩ := digitVal_le c5 h5
  obtain ⟨v6, t6⟩ := digitVal_le c6 h6
  obtain ⟨v7, t7⟩ := digitVal_le c7 h7
  split at h
  · cases h
  · rename_i hm
    split at h
    · cases h
    · rename_i hd
      simp only [Option.some.injEq] at h
      refine ⟨(((0 * 10 + digitVal c0) * 10 + digitVal c1) * 10 + digitVal c2) * 10
        + digitVal c3, digitVal c4 * 10 + digitVal c5, digitVal c6 * 10 + digitVal c7,
        ?_, ?_, h.symm⟩
      · rw [daysIn_eq_monthLength _ _ (by omega) (by omega)] at hd
        exact ⟨by omega, by omega, by omega, by omega, by omega⟩
      · unfold renderYYYYMMDD
        rw [digitChar_eq_of_toNat c0 _ (by omega), digitChar_eq_of_toNat c1 _ (by omega),
          digitChar_eq_of_toNat c2 _ (by omega), digitChar_eq_of_toNat c3 _ (by omega),
          digitChar_eq_of_toNat c4 _ (by omega), digitChar_eq_of_toNat c5 _ (by omega),
          digitChar_eq_of_toNat c6 _ (by omega), digitChar_eq_of_toNat c7 _ (by omega)]

/-- The parser accepts the rendering of every valid date and returns the
`Date` of it. -/
theorem timeParse_render (y m d : Nat) (h : ValidDate y m d) :
    timeParse (renderYYYYMMDD y m d) = some (Date (y : Int) m d) := by
  have hv := h
  obtain ⟨hy, hm1, hm12, hd1, hd⟩ := h
  have hdle := monthLength_le y m
  unfold renderYYYYMMDD
  rw [timeParse_digits _ _ _ _ _ _ _ _
    (by rw [digitChar_toNat]; omega) (by rw [digitChar_toNat]; omega)
    (by rw [digitChar_toNat]; omega) (by rw [digitChar_toNat]; omega)
    (by rw [digitChar_toNat]; omega) (by rw [digitChar_toNat]; omega)
    (by rw [digitChar_toNat]; omega) (by rw [digitChar_toNat]; omega)]
  simp only [digitVal_digitChar]
  have ey : (((0 * 10 + y / 1000 % 10) * 10 + y / 100 % 10) * 10 + y / 10 % 10) * 10
      + y % 10 = y := by omega
  have em : m / 10 % 10 * 10 + m % 10 = m := by omega
  have ed : d / 10 % 10 * 10 + d % 10 = d := by omega
  rw [ey, em, ed, daysIn_eq_monthLength y m hm1 hm12, if_neg (by omega), if_neg (by omega)]

theorem renderYYYYMMDD_ne_empty (y m d : Nat) : renderYYYYMMDD y m d ≠ "" := by
  intro h
  have := congrArg String.length h
  simp [renderYYYYMMDD, String.length] at this

end Podsync

namespace Podsync

theorem publishedAt_of_uploadDate (e : PlaylistEntry)
    (hts : e.Timestamp ≤ 0) (hrel : e.ReleaseTimestamp ≤ 0) :
    publishedAt (some e) =
      if e.UploadDate ≠ "" then
        match timeParse e.UploadDate with
        | some t => t
        | none => Time.zero
      else Time.zero := by
  simp only [publishedAt, not_lt.mpr hts, not_lt.mpr hrel, if_false]

/-- C9: for an entry without primary and release timestamp whose upload
date is the `YYYYMMDD` rendering of a valid calendar date, `publishedAt`
is midnight UTC of that day (86400 Unix seconds for each day since
1970-01-01, no nanoseconds); "20230615" gives Unix 1686787200; and an upload
date that is the rendering of no valid date gives the zero time. -/
theorem publishedAt_uploadDate (e : PlaylistEntry)
    (hts : e.Timestamp ≤ 0) (hrel : e.ReleaseTimestamp ≤ 0) :
    (∀ y m d, ValidDate y m d → e.UploadDate = renderYYYYMMDD y m d →
      (publishedAt (some e)).Unix = midnightUnix y m d ∧
      (publishedAt (some e)).nsec = 0 ∧
      publishedAt (some e) = Date (y : Int) m d) ∧
    (e.UploadDate = "20230615" →
      (publishedAt (some e)).Unix = 1686787200 ∧ (publishedAt (some e)).nsec = 0) ∧
    ((¬ ∃ y m d, ValidDate y m d ∧ e.UploadDate = renderYYYYMMDD y m d) →
      publishedAt (some e) = Time.zero) := by
  have hp := publishedAt_of_uploadDate e hts hrel
  refine ⟨?_, ?_, ?_⟩
  · intro y m d hv hs
    have hd : publishedAt (some e) = Date (y : Int) m d := by
      rw [hp, hs, if_pos (renderYYYYMMDD_ne_empty y m d), timeParse_render y m d hv]
    rw [hd]
    refine ⟨Date_Unix y m d hv, ?_, rfl⟩
    rw [Date_eq y m d hv]
  · intro hs
    have hparse : timeParse "20230615" = some ⟨63822384000, 0⟩ := by decide
    have hd : publishedAt (some e) = ⟨63822384000, 0⟩ := by
      rw [hp, hs, if_pos (by decide), hparse]
    rw [hd]
    exact ⟨by decide, rfl⟩
  · intro hnone
    rw [hp]
    split
    · cases hparse : timeParse e.UploadDate with
      | none => rfl
      | some t =>
        obtain ⟨y, m, d, hv, hs, -⟩ := timeParse_some hparse
        exact absurd ⟨y, m, d, hv, hs⟩ hnone
    · rfl

/-- C9 witness: an entry whose only date source is the upload date
"20230615", the rendering of 2023-06-15. -/
theorem publishedAt_uploadDate_witness :
    ValidDate 2023 6 15 ∧ testEntryUploadDate.UploadDate = renderYYYYMMDD 2023 6 15 ∧
    (publishedAt (some testEntryUploadDate)).Unix = midnightUnix 2023 6 15 ∧
    (publishedAt (some testEntryUploadDate)).Unix = 1686787200 :=
  ⟨by decide, by decide,
    ((publishedAt_uploadDate testEntryUploadDate (by decide) (by decide)).1 2023 6 15
      (by decide) (by decide)).1,
    ((publishedAt_uploadDate testEntryUploadDate (by decide) (by decide)).2.1 rfl).1⟩

/-! ## Every episode has a publish date -/

/-- C10: with a non-zero reading of the wall clock, the episode
`convertRumbleEntry` produces has a non-zero publish date, for every
entry; an entry without positive timestamps and without a parseable upload
date receives the reading of the clock; and so every episode of a feed
returned by `Build` has a non-zero publish date when the clock never reads
the zero time. -/
theorem convertRumbleEntry_pubDate_nonzero (e : PlaylistEntry) (feed : Feed) (now : Time)
    (hnow : now.IsZero = false) :
    (convertRumbleEntry e feed now).PubDate.IsZero = false ∧
    (e.Timestamp ≤ 0 → e.ReleaseTimestamp ≤ 0 →
      (e.UploadDate = "" ∨ timeParse e.UploadDate = none) →
      (convertRumbleEntry e feed now).PubDate = now) ∧
    (∀ (parsed : Except GoError Info) (fetched : Except GoError PlaylistMetadata)
      (clock : Nat → Time) (cfg : Config) (built : Feed),
      (∀ n, (clock n).IsZero = false) →
      Build parsed fetched clock cfg = .ok built →
      ∀ ep ∈ built.Episodes, ep.PubDate.IsZero = false) := by
  have hconv : ∀ (e : PlaylistEntry) (feed : Feed) (now : Time), now.IsZero = false →
      (convertRumbleEntry e feed now).PubDate.IsZero = false := by
    intro e feed now hnow
    simp only [convertRumbleEntry]
    by_cases hz : (publishedAt (some e)).IsZero = true
    · rw [if_pos hz]; exact hnow
    · rw [if_neg hz]; simpa using hz
  refine ⟨hconv e feed now hnow, ?_, ?_⟩
  · intro h1 h2 h3
    have hp : publishedAt (some e) = Time.zero := by
      rw [publishedAt_of_uploadDate e h1 h2]
      rcases h3 with h3 | h3
      · simp [h3]
      · simp [h3]
    simp only [convertRumbleEntry, hp]
    rfl
  · intro parsed fetched clock cfg built hclock hbuild ep hep
    obtain ⟨info, metadata, rfl, rfl⟩ := Build_ok_inv hbuild
    obtain ⟨e', n, -, -, rfl⟩ := mem_Build_episodes hbuild hep
    exact hconv _ _ _ (hclock n)

/-- C10 witness: an entry with no timestamp and the upload date "20230229",
which names no day, converted at a non-zero reading of the clock. -/
theorem convertRumbleEntry_pubDate_nonzero_witness :
    (testClock 1).IsZero = false ∧
    (convertRumbleEntry testEntryNoDate testFeed (testClock 1)).PubDate.IsZero = false ∧
    (convertRumbleEntry testEntryNoDate testFeed (testClock 1)).PubDate = testClock 1 :=
  ⟨by decide,
    (convertRumbleEntry_pubDate_nonzero testEntryNoDate testFeed (testClock 1) (by decide)).1,
    (convertRumbleEntry_pubDate_nonzero testEntryNoDate testFeed (testClock 1)
      (by decide)).2.1 (by decide) (by decide) (Or.inr (by decide))⟩

end Podsync

namespace Podsync

/-! ## `estimateRumbleSize` -/

/-- C11, as the code has it: whenever the product of the duration and the
rate of the (format, quality) pair is representable as an `int64`,
`estimateRumbleSize` returns exactly that product; the rate is 16000 for
audio/high, 6000 for audio/low, 350000 for video/high and 100000 for
video/low; 120 s of video/high give 42,000,000. -/
theorem estimateRumbleSize_exact (duration : Int) (feed : Feed) (rate : Int)
    (hrate : (feed.Format = FormatAudio ∧ feed.Quality = QualityHigh ∧ rate = 16000) ∨
      (feed.Format = FormatAudio ∧ feed.Quality = QualityLow ∧ rate = 6000) ∨
      (feed.Format = FormatVideo ∧ feed.Quality = QualityHigh ∧ rate = 350000) ∨
      (feed.Format = FormatVideo ∧ feed.Quality = QualityLow ∧ rate = 100000))
    (hfit : IsInt64 (duration * rate)) :
    estimateRumbleSize duration feed = duration * rate ∧
    estimateRumbleSize 120 testFeed = 42000000 := by
  unfold IsInt64 at hfit
  have hne : FormatVideo ≠ FormatAudio := by decide
  have hq : QualityLow ≠ QualityHigh := by decide
  refine ⟨?_, by decide⟩
  rcases hrate with ⟨hf, hq', rfl⟩ | ⟨hf, hq', rfl⟩ | ⟨hf, hq', rfl⟩ | ⟨hf, hq', rfl⟩
  · simp only [estimateRumbleSize, hf, hq', if_true, rumbleHighAudioBytesPerSecond, wrapInt64]
    omega
  · simp only [estimateRumbleSize, hf, hq', if_true, hq, if_false,
      rumbleLowAudioBytesPerSecond, wrapInt64]
    omega
  · simp only [estimateRumbleSize, hf, hq', hne, if_true, if_false,
      rumbleHighVideoBytesPerSecond, wrapInt64]
    omega
  · simp only [estimateRumbleSize, hf, hq', hne, hq, if_false,
      rumbleLowVideoBytesPerSecond, wrapInt64]
    omega

/-- C11 witness: the 120 seconds of the first test entry at video/high. -/
theorem estimateRumbleSize_exact_witness :
    IsInt64 (120 * 350000) ∧ estimateRumbleSize 120 testFeed = 120 * 350000 :=
  ⟨by decide,
    (estimateRumbleSize_exact 120 testFeed 350000
      (Or.inr (Or.inr (Or.inl ⟨rfl, rfl, rfl⟩))) (by decide)).1⟩

/-- C11 counterexample: a duration of 2^62 seconds is an `int64`, and at
video/high the `int64` product wraps to 0 instead of 2^62 × 350000. -/
theorem estimateRumbleSize_overflow_counterexample :
    IsInt64 (2 ^ 62) ∧ testFeed.Format = FormatVideo ∧ testFeed.Quality = QualityHigh ∧
    estimateRumbleSize (2 ^ 62) testFeed = 0 ∧
    estimateRumbleSize (2 ^ 62) testFeed ≠ 2 ^ 62 * 350000 := by
  decide

/-! ## `selectRumbleThumbnail` -/

/-- C12: `selectRumbleThumbnail` returns the empty string for an empty
sequence, the URL of the first thumbnail when the quality is exactly
"low", and the URL of the last thumbnail for every other quality value;
for a sequence of one thumbnail every quality gives its URL. -/
theorem selectRumbleThumbnail_spec :
    (∀ q : Quality, selectRumbleThumbnail [] q = "") ∧
    (∀ (l : List PlaylistMetadataThumbnail) (h : l ≠ []),
      selectRumbleThumbnail l "low" = (l.head h).Url) ∧
    (∀ (l : List PlaylistMetadataThumbnail) (h : l ≠ []) (q : Quality), q ≠ "low" →
      selectRumbleThumbnail l q = (l.getLast h).Url) ∧
    (∀ (t : PlaylistMetadataThumbnail) (q : Quality), selectRumbleThumbnail [t] q = t.Url) ∧
    selectRumbleThumbnail [⟨"https://image/low.jpg"⟩, ⟨"https://image/high.jpg"⟩] "low" =
      "https://image/low.jpg" ∧
    selectRumbleThumbnail [⟨"https://image/low.jpg"⟩, ⟨"https://image/high.jpg"⟩] "high" =
      "https://image/high.jpg" ∧
    selectRumbleThumbnail [⟨"https://image/low.jpg"⟩, ⟨"https://image/high.jpg"⟩] "" =
      "https://image/high.jpg" := by
  refine ⟨fun _ => rfl, ?_, ?_, ?_, by decide, by decide, by decide⟩
  · intro l h
    cases l with
    | nil => exact absurd rfl h
    | cons first rest => simp [selectRumbleThumbnail, QualityLow]
  · intro l h q hq
    cases l with
    | nil => exact absurd rfl h
    | cons first rest => simp [selectRumbleThumbnail, QualityLow, hq]
  · intro t q
    simp [selectRumbleThumbnail]

end Podsync

namespace Podsync

/-! ## Feed-level fields -/

/-- A returned feed is the feed the loop started with, up to its publish
date and its episodes. -/
theorem Build_ok_newFeed {info : Info} {metadata : PlaylistMetadata} {clock : Nat → Time}
    {cfg : Config} {feed : Feed}
    (h : Build (.ok info) (.ok metadata) clock cfg = .ok feed) :
    ∃ pubDate episodes,
      feed = { newFeed info metadata clock cfg with PubDate := pubDate, Episodes := episodes } := by
  simp only [Build] at h
  cases h
  exact ⟨_, _, rfl⟩

theorem append_ne_empty (a s : String) (h : a ≠ "") : a ++ s ≠ "" := by
  intro hs
  have hl := congrArg String.length hs
  rw [String.length_append] at hl
  have h0 : a.length = 0 := by
    have : ("" : String).length = 0 := rfl
    omega
  apply h
  cases a with
  | mk data =>
    have : data = [] := List.length_eq_zero.mp h0
    subst this
    rfl

/-- C13: the title of a returned feed is the playlist title if non-empty,
else the item identifier of the locator; the description is the playlist
description if non-empty, else "Rumble feed for " followed by the title;
the author is the channel name if non-empty, else the title.  In the
scenario of the test the title is "Channel title" and the author "Channel
author". -/
theorem Build_title_description_author (info : Info) (metadata : PlaylistMetadata)
    (clock : Nat → Time) (cfg : Config) (feed : Feed)
    (h : Build (.ok info) (.ok metadata) clock cfg = .ok feed) :
    feed.Title = (if metadata.Title ≠ "" then metadata.Title else info.ItemID) ∧
    feed.Description =
      (if metadata.Description ≠ "" then metadata.Description
        else "Rumble feed for " ++ feed.Title) ∧
    feed.Author = (if metadata.Channel ≠ "" then metadata.Channel else feed.Title) ∧
    (∃ built, Build (.ok testInfo) (.ok testMetadata) testClock testConfig = .ok built ∧
      built.Title = "Channel title" ∧ built.Author = "Channel author") := by
  obtain ⟨pubDate, episodes, rfl⟩ := Build_ok_newFeed h
  refine ⟨rfl, ?_, ?_, ⟨testFeed, rfl, rfl, rfl⟩⟩
  · simp only [newFeed]
    by_cases hd : metadata.Description = "" <;> simp [hd]
  · simp only [newFeed]
    by_cases hc : metadata.Channel = "" <;> simp [hc]

/-- C13 witness: the scenario of the test. -/
theorem Build_title_description_author_witness :
    Build (.ok testInfo) (.ok testMetadata) testClock testConfig = .ok testFeed ∧
    testFeed.Title = "Channel title" ∧
    testFeed.Description = "Channel description" ∧
    testFeed.Author = "Channel author" :=
  ⟨Build_test,
    (Build_title_description_author testInfo testMetadata testClock testConfig testFeed
      Build_test).1,
    (Build_title_description_author testInfo testMetadata testClock testConfig testFeed
      Build_test).2.1,
    (Build_title_description_author testInfo testMetadata testClock testConfig testFeed
      Build_test).2.2.1⟩

/-- C14: the item URL of a returned feed is the first non-empty value of
the channel URL, the webpage URL and `Config.URL`; a non-empty channel URL
wins whatever the webpage URL is. -/
theorem Build_itemURL (info : Info) (metadata : PlaylistMetadata)
    (clock : Nat → Time) (cfg : Config) (feed : Feed)
    (h : Build (.ok info) (.ok metadata) clock cfg = .ok feed) :
    feed.ItemURL =
      (if metadata.ChannelUrl ≠ "" then metadata.ChannelUrl
        else if metadata.WebpageUrl ≠ "" then metadata.WebpageUrl
        else cfg.URL) ∧
    (metadata.ChannelUrl ≠ "" → feed.ItemURL = metadata.ChannelUrl) := by
  obtain ⟨pubDate, episodes, rfl⟩ := Build_ok_newFeed h
  simp only [newFeed]
  by_cases hc : metadata.ChannelUrl = ""
  · by_cases hw : metadata.WebpageUrl = "" <;> simp [hc, hw]
  · simp [hc]

/-- C14 witness: the scenario of the test, whose playlist has a channel URL. -/
theorem Build_itemURL_witness :
    Build (.ok testInfo) (.ok testMetadata) testClock testConfig = .ok testFeed ∧
    testFeed.ItemURL = "https://rumble.com/c/example" :=
  ⟨Build_test,
    (Build_itemURL testInfo testMetadata testClock testConfig testFeed Build_test).1⟩

end Podsync

namespace Podsync

theorem selectRumbleThumbnail_mem (l : List PlaylistMetadataThumbnail) (q : Quality)
    (h : l ≠ []) : ∃ t ∈ l, selectRumbleThumbnail l q = t.Url := by
  cases l with
  | nil => exact absurd rfl h
  | cons first rest =>
    by_cases hq : q = QualityLow
    · exact ⟨first, List.mem_cons_self _ _, by simp [selectRumbleThumbnail, hq]⟩
    · exact ⟨(first :: rest).getLast (List.cons_ne_nil first rest), List.getLast_mem _,
        by simp [selectRumbleThumbnail, hq]⟩

/-- C15, as the code has it: in a returned feed the description is
non-empty; the title and the author are non-empty when the playlist title or
the item identifier of the locator is; the item URL is non-empty when the
channel URL, the webpage URL or `Config.URL` is; the cover art is empty for a
playlist without thumbnails and non-empty when the playlist has thumbnails
with non-empty URLs. -/
theorem Build_feed_fields_set (info : Info) (metadata : PlaylistMetadata)
    (clock : Nat → Time) (cfg : Config) (feed : Feed)
    (h : Build (.ok info) (.ok metadata) clock cfg = .ok feed) :
    feed.Description ≠ "" ∧
    ((metadata.Title ≠ "" ∨ info.ItemID ≠ "") → feed.Title ≠ "" ∧ feed.Author ≠ "") ∧
    ((metadata.ChannelUrl ≠ "" ∨ metadata.WebpageUrl ≠ "" ∨ cfg.URL ≠ "") →
      feed.ItemURL ≠ "") ∧
    (metadata.Thumbnails = [] → feed.CoverArt = "") ∧
    (metadata.Thumbnails ≠ [] → (∀ t ∈ metadata.Thumbnails, t.Url ≠ "") →
      feed.CoverArt ≠ "") := by
  obtain ⟨pubDate, episodes, rfl⟩ := Build_ok_newFeed h
  have htitle : (metadata.Title ≠ "" ∨ info.ItemID ≠ "") →
      (if metadata.Title ≠ "" then metadata.Title else info.ItemID) ≠ "" := by
    intro hor
    by_cases ht : metadata.Title = ""
    · rcases hor with hor | hor
      · exact absurd ht hor
      · simpa [ht] using hor
    · simp [ht]
  refine ⟨?_, ?_, ?_, ?_, ?_⟩
  · simp only [newFeed]
    by_cases hd : metadata.Description = ""
    · simp only [hd, if_true]
      exact append_ne_empty _ _ (by decide)
    · simp [hd]
  · intro hor
    have ht := htitle hor
    refine ⟨ht, ?_⟩
    simp only [newFeed]
    by_cases hc : metadata.Channel = ""
    · simpa [hc] using ht
    · simp [hc]
  · intro hor
    simp only [newFeed]
    by_cases hc : metadata.ChannelUrl = ""
    · by_cases hw : metadata.WebpageUrl = ""
      · rcases hor with hor | hor | hor
        · exact absurd hc hor
        · exact absurd hw hor
        · simpa [hc, hw] using hor
      · simp [hc, hw]
    · simp [hc]
  · intro hnil
    simp [newFeed, hnil, selectRumbleThumbnail]
  · intro hne hall
    obtain ⟨t, ht, hsel⟩ :=
      selectRumbleThumbnail_mem metadata.Thumbnails cfg.Custom.CoverArtQuality hne
    simp only [newFeed]
    rw [hsel]
    exact hall t ht

/-- C15 witness: the scenario of the test, where every source is present. -/
theorem Build_feed_fields_set_witness :
    Build (.ok testInfo) (.ok testMetadata) testClock testConfig = .ok testFeed ∧
    testFeed.Description ≠ "" ∧ testFeed.Title ≠ "" ∧ testFeed.Author ≠ "" ∧
    testFeed.ItemURL ≠ "" ∧ testFeed.CoverArt ≠ "" :=
  ⟨Build_test,
    (Build_feed_fields_set testInfo testMetadata testClock testConfig testFeed Build_test).1,
    ((Build_feed_fields_set testInfo testMetadata testClock testConfig testFeed
      Build_test).2.1 (Or.inl (by decide))).1,
    ((Build_feed_fields_set testInfo testMetadata testClock testConfig testFeed
      Build_test).2.1 (Or.inl (by decide))).2,
    (Build_feed_fields_set testInfo testMetadata testClock testConfig testFeed
      Build_test).2.2.1 (Or.inl (by decide)),
    (Build_feed_fields_set testInfo testMetadata testClock testConfig testFeed
      Build_test).2.2.2.2 (by decide) (by decide)⟩

/-- C15 counterexample: the playlist of the test without thumbnails gives a
feed with an empty cover art; and a playlist without title, channel and
URLs, resolved to an empty item identifier for an empty `Config.URL`,
gives a feed whose title, author and item URL are empty. -/
theorem Build_feed_fields_counterexample :
    (∃ feed, Build (.ok testInfo) (.ok { testMetadata with Thumbnails := [] }) testClock
        testConfig = .ok feed ∧ feed.CoverArt = "") ∧
    (∃ feed, Build (.ok { testInfo with ItemID := "" }) (.ok emptyMetadata) testClock
        { testConfig with URL := "" } = .ok feed ∧
      feed.Title = "" ∧ feed.Author = "" ∧ feed.ItemURL = "" ∧ feed.CoverArt = "") :=
  ⟨⟨_, rfl, rfl⟩, ⟨_, rfl, rfl, rfl, rfl, rfl⟩⟩

end Podsync

namespace Podsync

/-! ## Episode fields -/

/-- C16: the video URL of a converted entry is the first non-empty value of
the webpage URL of the entry, its fallback URL and "https://rumble.com/"
followed by its identifier, so it is never empty, also for every episode of a
returned feed; the first entry of the test keeps its webpage URL
"https://rumble.com/vabc123". -/
theorem convertRumbleEntry_videoURL (e : PlaylistEntry) (feed : Feed) (now : Time) :
    (convertRumbleEntry e feed now).VideoURL =
      (if e.WebpageURL ≠ "" then e.WebpageURL
        else if e.URL ≠ "" then e.URL
        else "https://rumble.com/" ++ e.ID) ∧
    (convertRumbleEntry e feed now).VideoURL ≠ "" ∧
    (∀ (parsed : Except GoError Info) (fetched : Except GoError PlaylistMetadata)
      (clock : Nat → Time) (cfg : Config) (built : Feed),
      Build parsed fetched clock cfg = .ok built →
      ∀ ep ∈ built.Episodes, ep.VideoURL ≠ "") ∧
    (convertRumbleEntry testEntry1 testFeed (testClock 1)).VideoURL =
      "https://rumble.com/vabc123" := by
  have hurl : ∀ (e : PlaylistEntry) (feed : Feed) (now : Time),
      (convertRumbleEntry e feed now).VideoURL =
        (if e.WebpageURL ≠ "" then e.WebpageURL
          else if e.URL ≠ "" then e.URL
          else "https://rumble.com/" ++ e.ID) := by
    intro e feed now
    simp only [convertRumbleEntry]
    by_cases hw : e.WebpageURL = ""
    · by_cases hu : e.URL = "" <;> simp [hw, hu]
    · simp [hw]
  have hne : ∀ (e : PlaylistEntry) (feed : Feed) (now : Time),
      (convertRumbleEntry e feed now).VideoURL ≠ "" := by
    intro e feed now
    rw [hurl]
    by_cases hw : e.WebpageURL = ""
    · by_cases hu : e.URL = ""
      · simp only [hw, hu, ne_eq, not_true_eq_false, if_false]
        exact append_ne_empty _ _ (by decide)
      · simp [hw, hu]
    · simp [hw]
  refine ⟨hurl e feed now, hne e feed now, ?_, rfl⟩
  intro parsed fetched clock cfg built hbuild ep hep
  obtain ⟨info, metadata, rfl, rfl⟩ := Build_ok_inv hbuild
  obtain ⟨e', n, -, -, rfl⟩ := mem_Build_episodes hbuild hep
  exact hne _ _ _

/-- The identifiers of the conversions are the identifiers of the entries. -/
theorem convertAll_map_ID (feed : Feed) (clock : Nat → Time) (l : List PlaylistEntry)
    (tick : Nat) :
    (convertAll feed clock l tick).map (fun ep => ep.ID) = l.map (fun e => e.ID) := by
  induction l generalizing tick with
  | nil => rfl
  | cons e rest ih => simp [convertAll, ih, convertRumbleEntry]

/-- C17, as the code has it: every episode of a returned feed has a non-empty
identifier, and no two episodes share an identifier when no two valid
fetched entries do. -/
theorem Build_episode_ids (info : Info) (metadata : PlaylistMetadata)
    (clock : Nat → Time) (cfg : Config) (feed : Feed)
    (h : Build (.ok info) (.ok metadata) clock cfg = .ok feed) :
    (∀ ep ∈ feed.Episodes, ep.ID ≠ "") ∧
    (((validEntries metadata.Entries).map (fun e => e.ID)).Nodup →
      (feed.Episodes.map (fun ep => ep.ID)).Nodup) := by
  constructor
  · intro ep hep
    obtain ⟨e, n, -, hid, rfl⟩ := mem_Build_episodes h hep
    exact hid
  · intro hnodup
    obtain ⟨feed', h1, h2⟩ := Build_ok_episodes info metadata clock cfg
    rw [h1] at h
    cases h
    rw [h2]
    refine ((sortEpisodes_perm _ _).map _).nodup_iff.mpr ?_
    rw [convertAll_map_ID]
    exact hnodup.sublist ((List.take_sublist _ _).map _)

/-- C17 witness: the scenario of the test with page size 2; the two
identifiers abc123 and def456 are distinct. -/
theorem Build_episode_ids_witness :
    ((validEntries testMetadata.Entries).map (fun e => e.ID)).Nodup ∧
    ∃ feed, Build (.ok testInfo) (.ok testMetadata) testClock
        { testConfig with PageSize := 2 } = .ok feed ∧
      feed.Episodes.map (fun ep => ep.ID) = ["def456", "abc123"] ∧
      (feed.Episodes.map (fun ep => ep.ID)).Nodup :=
  ⟨by decide, _, rfl, rfl,
    (Build_episode_ids testInfo testMetadata testClock { testConfig with PageSize := 2 } _
      rfl).2 (by decide)⟩

/-- C17 counterexample: a playlist that lists the entry abc123 twice, built
with page size 2, gives two episodes with the identifier abc123. -/
theorem Build_episode_ids_counterexample :
    ∃ feed, Build (.ok testInfo)
        (.ok { testMetadata with Entries := [some testEntry1, some testEntry1] }) testClock
        { testConfig with PageSize := 2 } = .ok feed ∧
      feed.Episodes.map (fun ep => ep.ID) = ["abc123", "abc123"] ∧
      ¬ (feed.Episodes.map (fun ep => ep.ID)).Nodup :=
  ⟨_, rfl, rfl, by decide⟩

end Podsync

namespace Podsync

/-! ## Quality separation -/

/-- The conversion reads the format and the quality of the feed only. -/
theorem convertRumbleEntry_congr (e : PlaylistEntry) (feed feed' : Feed) (now : Time)
    (hq : feed.Quality = feed'.Quality) (hf : feed.Format = feed'.Format) :
    convertRumbleEntry e feed now = convertRumbleEntry e feed' now := by
  simp [convertRumbleEntry, estimateRumbleSize, hq, hf]

theorem convertAll_congr (feed feed' : Feed) (clock : Nat → Time) (l : List PlaylistEntry)
    (tick : Nat) (hq : feed.Quality = feed'.Quality) (hf : feed.Format = feed'.Format) :
    convertAll feed clock l tick = convertAll feed' clock l tick := by
  induction l generalizing tick with
  | nil => rfl
  | cons e rest ih =>
    rw [convertAll, convertAll, ih, convertRumbleEntry_congr e feed feed' _ hq hf]

/-- C18: the thumbnail of every episode is selected from the thumbnails of
its entry with `Config.Quality`, the cover art from the thumbnails of the
playlist with `Config.CoverArtQuality`; a run that differs only in the
cover-art quality returns the same episodes, and a run that differs only in
the quality returns the same cover art. -/
theorem Build_quality_separation (info : Info) (metadata : PlaylistMetadata)
    (clock : Nat → Time) (cfg : Config) (q : Quality) (feed feed1 feed2 : Feed)
    (h : Build (.ok info) (.ok metadata) clock cfg = .ok feed)
    (h1 : Build (.ok info) (.ok metadata) clock { cfg with Custom := ⟨q⟩ } = .ok feed1)
    (h2 : Build (.ok info) (.ok metadata) clock { cfg with Quality := q } = .ok feed2) :
    (∀ ep ∈ feed.Episodes, ∃ e, some e ∈ metadata.Entries ∧ ep.ID = e.ID ∧
      ep.Thumbnail = selectRumbleThumbnail e.Thumbnails cfg.Quality) ∧
    feed.CoverArt = selectRumbleThumbnail metadata.Thumbnails cfg.Custom.CoverArtQuality ∧
    feed1.Episodes = feed.Episodes ∧
    feed2.CoverArt = feed.CoverArt := by
  refine ⟨?_, ?_, ?_, ?_⟩
  · intro ep hep
    obtain ⟨e, n, he, -, rfl⟩ := mem_Build_episodes h hep
    exact ⟨e, he, rfl, rfl⟩
  · obtain ⟨pubDate, episodes, rfl⟩ := Build_ok_newFeed h
    rfl
  · obtain ⟨f, e1, e2⟩ := Build_ok_episodes info metadata clock cfg
    obtain ⟨f1, e3, e4⟩ := Build_ok_episodes info metadata clock { cfg with Custom := ⟨q⟩ }
    rw [e1] at h
    rw [e3] at h1
    cases h
    cases h1
    rw [e2, e4]
    rw [convertAll_congr (newFeed info metadata clock { cfg with Custom := ⟨q⟩ })
      (newFeed info metadata clock cfg) clock _ 1 rfl rfl]
  · obtain ⟨pubDate, episodes, rfl⟩ := Build_ok_newFeed h
    obtain ⟨pubDate2, episodes2, rfl⟩ := Build_ok_newFeed h2
    rfl

/-- C18 witness: the scenario of the test against the same run with
cover-art quality "low" and against the same run with quality "low". -/
theorem Build_quality_separation_witness :
    ∃ feed1 feed2,
      Build (.ok testInfo) (.ok testMetadata) testClock { testConfig with Custom := ⟨"low"⟩ }
        = .ok feed1 ∧
      Build (.ok testInfo) (.ok testMetadata) testClock { testConfig with Quality := "low" }
        = .ok feed2 ∧
      feed1.CoverArt = "https://image/low.jpg" ∧
      feed1.Episodes = testFeed.Episodes ∧
      feed2.CoverArt = testFeed.CoverArt :=
  ⟨_, _, rfl, rfl, rfl,
    (Build_quality_separation testInfo testMetadata testClock testConfig "low" testFeed _ _
      Build_test rfl rfl).2.2.1,
    (Build_quality_separation testInfo testMetadata testClock testConfig "low" testFeed _ _
      Build_test rfl rfl).2.2.2⟩

/-- C19: every episode of a returned feed has the status "new" and the
identifier, title and description of a fetched entry, the one it is the
conversion of. -/
theorem Build_episode_status_new (info : Info) (metadata : PlaylistMetadata)
    (clock : Nat → Time) (cfg : Config) (feed : Feed)
    (h : Build (.ok info) (.ok metadata) clock cfg = .ok feed) :
    ∀ ep ∈ feed.Episodes, ep.Status = "new" ∧
      ∃ e now, some e ∈ metadata.Entries ∧ ep = convertRumbleEntry e feed now ∧
        ep.ID = e.ID ∧ ep.Title = e.Title ∧ ep.Description = e.Description := by
  intro ep hep
  obtain ⟨e, n, he, -, rfl⟩ := mem_Build_episodes h hep
  obtain ⟨pubDate, episodes, rfl⟩ := Build_ok_newFeed h
  exact ⟨rfl, e, clock n, he, convertRumbleEntry_congr e _ _ _ rfl rfl, rfl, rfl, rfl⟩

/-- C19 witness: the scenario of the test; its episode carries the
identifier, title and description of the first entry. -/
theorem Build_episode_status_new_witness :
    Build (.ok testInfo) (.ok testMetadata) testClock testConfig = .ok testFeed ∧
    ∀ ep ∈ testFeed.Episodes, ep.Status = "new" ∧
      ∃ e now, some e ∈ testMetadata.Entries ∧ ep = convertRumbleEntry e testFeed now ∧
        ep.ID = e.ID ∧ ep.Title = e.Title ∧ ep.Description = e.Description :=
  ⟨Build_test,
    Build_episode_status_new testInfo testMetadata testClock testConfig testFeed Build_test⟩

/-! ## Sorting again -/

theorem stableInsert_append_of_not_less {α : Type} (less : α → α → Bool) (x : α)
    (l : List α) (h : ∀ p ∈ l, less x p = false) : stableInsert less x l = l ++ [x] := by
  induction l with
  | nil => rfl
  | cons p ps ih =>
    rw [stableInsert, if_neg (by simp [h p (List.mem_cons_self _ _)]),
      ih (fun q hq => h q (List.mem_cons_of_mem _ hq))]
    rfl

theorem foldl_stableInsert_of_sorted {α : Type} (less : α → α → Bool) (l acc : List α)
    (h : (acc ++ l).Pairwise (fun a b => less b a = false)) :
    l.foldl (fun sorted x => stableInsert less x sorted) acc = acc ++ l := by
  induction l generalizing acc with
  | nil => simp
  | cons x xs ih =>
    have hx : ∀ p ∈ acc, less x p = false := by
      intro p hp
      rw [List.pairwise_append] at h
      exact h.2.2 p hp x (List.mem_cons_self _ _)
    simp only [List.foldl_cons]
    rw [stableInsert_append_of_not_less less x acc hx, ih]
    · simp
    · simpa using h

/-- A slice that is in order is left as it is. -/
theorem sliceStable_of_sorted {α : Type} (less : α → α → Bool) (l : List α)
    (h : l.Pairwise (fun a b => less b a = false)) : sliceStable less l = l := by
  simpa [sliceStable] using foldl_stableInsert_of_sorted less l [] (by simpa using h)

/-- C20: sorting a sorted episode list again, with the same sort value,
returns it unchanged; so the episodes of a returned feed are a fixed point of
`sortEpisodes`, and the first of them still carries the publish date of the
feed. -/
theorem sortEpisodes_idempotent (s : Sorting) (l : List Episode) :
    sortEpisodes s (sortEpisodes s l) = sortEpisodes s l ∧
    (∀ (parsed : Except GoError Info) (fetched : Except GoError PlaylistMetadata)
      (clock : Nat → Time) (cfg : Config) (feed : Feed),
      Build parsed fetched clock cfg = .ok feed →
      sortEpisodes cfg.PlaylistSort feed.Episodes = feed.Episodes ∧
      ∀ first rest, sortEpisodes cfg.PlaylistSort feed.Episodes = first :: rest →
        first.PubDate = feed.PubDate) := by
  have hidem : ∀ (s : Sorting) (l : List Episode),
      sortEpisodes s (sortEpisodes s l) = sortEpisodes s l := by
    intro s l
    have hsorted := sortEpisodes_sorted s l
    generalize sortEpisodes s l = sorted at hsorted
    rw [sortEpisodes_eq]
    exact sliceStable_of_sorted _ sorted hsorted
  refine ⟨hidem s l, ?_⟩
  intro parsed fetched clock cfg feed hbuild
  obtain ⟨info, metadata, rfl, rfl⟩ := Build_ok_inv hbuild
  obtain ⟨feed', h1, h2⟩ := Build_ok_episodes info metadata clock cfg
  have hpub := Build_ok_pubDate hbuild
  rw [h1] at hbuild
  cases hbuild
  have hfix : sortEpisodes cfg.PlaylistSort feed.Episodes = feed.Episodes := by
    rw [h2]
    exact hidem _ _
  refine ⟨hfix, ?_⟩
  intro first rest hcons
  rw [hfix] at hcons
  rw [hpub, hcons]

end Podsync
